import Mathlib

/-!
Shallow embedding of the realtime session and broadcast layer of
`src/app.py` (EchoBoard).  Python strings are modelled as `List Char`,
Python dicts and sets as association lists and duplicate-free lists,
SQLite tables as lists of rows.  Event handlers become pure functions
from event data and state to a new state, a list of room broadcasts
and an error / exception channel.
-/

namespace EchoBoard

/-- Python `str` is modelled as a list of characters. -/
abbrev Str := List Char

/-- Conversion from a Lean string literal to the model type. -/
def str (s : String) : Str := s.toList

/-- Characters removed by Python's `str.strip()`. -/
def isPySpace (c : Char) : Bool :=
  c = ' ' || c = '\t' || c = '\n' || c = '\r' || c = '\x0b' || c = '\x0c'

/-- Python `s.strip()`: drop whitespace at both ends. -/
def pyStrip (s : Str) : Str :=
  ((s.dropWhile isPySpace).reverse.dropWhile isPySpace).reverse

/-- Python `a or b` on strings: the empty string is falsy. -/
def pyOr (a b : Str) : Str := if a = [] then b else a

/-- Python `a or b` where `a` is an optional string (`dict.get` result):
`None` and `""` are falsy. -/
def pyOrOpt (a : Option Str) (b : Str) : Str := pyOr (a.getD []) b

/-- Python `n or 0` on an integer (`0` is falsy, so this is the identity;
kept because the source writes `cur.fetchone()[0] or 0`). -/
def pyOrZero (n : Int) : Int := if n = 0 then 0 else n

/-- Lexicographic comparison of two model strings, matching Python's
`<=` on `str` (code-point order). -/
def strLe : Str → Str → Bool
  | [], _ => true
  | _ :: _, [] => false
  | a :: as, b :: bs => if a = b then strLe as bs else decide (a < b)

/-- Python `sorted(...)` on a list of strings. -/
def pySortStr (l : List Str) : List Str :=
  List.insertionSort (fun a b => strLe a b = true) l

-- ---------------------------------------------------------------------
-- Association-list helpers modelling Python dicts
-- ---------------------------------------------------------------------

/-- Lookup in an association list (Python `d.get(k)` / `d[k]`). -/
def alookup {α β : Type} [DecidableEq α] (m : List (α × β)) (k : α) : Option β :=
  (m.find? (fun e => e.1 = k)).map (·.2)

/-- Python `d.get(k, dflt)`. -/
def agetD {α β : Type} [DecidableEq α] (m : List (α × β)) (k : α) (dflt : β) : β :=
  (alookup m k).getD dflt

/-- Mutate the value stored under an existing key in place
(Python `d.get(k, {}) .mutate(...)`: a missing key mutates a throw-away
fresh value, so the map is unchanged). -/
def aadjust {α β : Type} [DecidableEq α] (m : List (α × β)) (k : α) (f : β → β) :
    List (α × β) :=
  m.map (fun e => if e.1 = k then (e.1, f e.2) else e)

/-- Python `d.setdefault(k, dflt)` followed by mutating the stored value. -/
def aupdate {α β : Type} [DecidableEq α] (m : List (α × β)) (k : α) (dflt : β)
    (f : β → β) : List (α × β) :=
  if (alookup m k).isSome then aadjust m k f else m ++ [(k, f dflt)]

/-- Keys of an association list. -/
def akeys {α β : Type} (m : List (α × β)) : List α := m.map Prod.fst

/-- Values of an association list (Python `d.values()`). -/
def avals {α β : Type} (m : List (α × β)) : List β := m.map Prod.snd

/-- Python inner-dict assignment `d[k] = v`. -/
def dset {β : Type} (d : List (Nat × β)) (k : Nat) (v : β) : List (Nat × β) :=
  if (alookup d k).isSome then aadjust d k (fun _ => v) else d ++ [(k, v)]

/-- Python `d.pop(k, None)`: remove the entry stored under `k`, if any. -/
def dpop {β : Type} (d : List (Nat × β)) (k : Nat) : List (Nat × β) :=
  d.filter (fun e => e.1 ≠ k)

/-- Python `set.add` on a duplicate-free list. -/
def sadd (s : List Nat) (x : Nat) : List Nat := if x ∈ s then s else s ++ [x]

-- ---------------------------------------------------------------------
-- Durable data model (SQLite rows referenced by the realtime layer)
-- ---------------------------------------------------------------------

/-- Row of the `boards` table (fields used by the realtime layer). -/
structure BoardRow where
  id : Nat
  code : Str
  title : Str
  theme : Str
  accent_color : Option Str
  background_anim : Option Str
deriving DecidableEq, Repr

/-- Row of the `cards` table. -/
structure CardRow where
  id : Nat
  board_id : Nat
  author : Str
  text : Str
  tag : Str
  votes : Option Int
  order_index : Option Int
  attachment_path : Option Str
deriving DecidableEq, Repr

/-- Row of the `messages` table (board chat). -/
structure MsgRow where
  id : Nat
  board_id : Nat
  author : Str
  text : Str
  channel : Str
  reply_to : Option Nat
  pinned : Int
  attachments : Option Str
  voice_path : Option Str
  edited_at : Option Nat
  deleted_at : Option Nat
deriving DecidableEq, Repr

/-- Row of the `dm_messages` table. -/
structure DmMsgRow where
  id : Nat
  sender_id : Nat
  receiver_id : Nat
  text : Str
  reply_to : Option Nat
  voice_path : Option Str
  edited_at : Option Nat
  deleted_at : Option Nat
  read_at : Option Nat
deriving DecidableEq, Repr

/-- Row of the `group_rooms` table. -/
structure GroupRoomRow where
  id : Nat
  slug : Str
  title : Str
deriving DecidableEq, Repr

/-- Row of the `group_messages` table. -/
structure GroupMsgRow where
  id : Nat
  room_id : Nat
  sender_id : Nat
  sender_name : Str
  text : Str
deriving DecidableEq, Repr

/-- Row of the `board_members` table. -/
structure MemberRow where
  board_id : Nat
  user_id : Nat
  role : Str
deriving DecidableEq, Repr

/-- Row of `message_reactions` / `dm_reactions`: the unique
`(message_id, user_id, emoji)` triple. -/
structure Reaction where
  message_id : Nat
  user_id : Nat
  emoji : Str
deriving DecidableEq, Repr

/-- Row of the `board_activity` table (only its shape matters here). -/
structure ActivityRow where
  board_id : Nat
  user_id : Option Nat
  kind : Str
deriving DecidableEq, Repr

/-- Row of the `presence_history` table. -/
structure PresenceRow where
  board_id : Nat
  user_id : Nat
  action : Str
  details : Option Str
deriving DecidableEq, Repr

/-- Row of the `users` table (fields used by the realtime layer). -/
structure UserRow where
  id : Nat
  username : Str
deriving DecidableEq, Repr

/-- The durable storage state: the tables touched by the handlers under
study.  Timestamps are abstracted to a logical clock `now` supplied by
the caller where the source writes `datetime('now')`. -/
structure Db where
  users : List UserRow
  boards : List BoardRow
  cards : List CardRow
  messages : List MsgRow
  dm_messages : List DmMsgRow
  group_rooms : List GroupRoomRow
  group_messages : List GroupMsgRow
  board_members : List MemberRow
  message_reactions : List Reaction
  dm_reactions : List Reaction
  board_activity : List ActivityRow
  presence_history : List PresenceRow
deriving DecidableEq, Repr

/-- Fresh `AUTOINCREMENT` row id: one more than the largest id in use. -/
def newId (ids : List Nat) : Nat := (ids.foldr max 0) + 1

/-- Helper `get_board_by_code` of `src/app.py`. -/
def get_board_by_code (db : Db) (code : Str) : Option BoardRow :=
  db.boards.find? (fun b => b.code = code)

/-- Helper `get_member_role` of `src/app.py`: `None` for an anonymous
user or when no membership row exists. -/
def get_member_role (db : Db) (board_id : Nat) (user_id : Nat) : Option Str :=
  if user_id = 0 then none
  else (db.board_members.find? (fun r => r.board_id = board_id ∧ r.user_id = user_id)).map
    (·.role)

/-- Helper `ensure_board_member` of `src/app.py`: `INSERT OR IGNORE`
with the role defaulting to the existing row's role (`COALESCE`), i.e.
an existing row is left untouched and a missing row is inserted with
the supplied role. -/
def ensure_board_member (db : Db) (board_id : Nat) (user_id : Nat) (role : Str) : Db :=
  if user_id = 0 then db
  else if (db.board_members.any (fun r => r.board_id = board_id ∧ r.user_id = user_id)) then db
  else { db with board_members := db.board_members ++ [⟨board_id, user_id, role⟩] }

/-- Table `ROLE_POWER` of `src/app.py` (`dict.get` default `0` for an
unknown role name). -/
def rolePower (role : Str) : Nat :=
  if role = str "viewer" then 0
  else if role = str "member" then 1
  else if role = str "moderator" then 2
  else if role = str "owner" then 3
  else 0

/-- Helper `has_role` of `src/app.py`: `ROLE_POWER.get(role or "member", 0)
>= ROLE_POWER.get(minimum, 0)`; a `None` or empty role falls back to
`"member"`. -/
def has_role (role : Option Str) (minimum : Str) : Bool :=
  rolePower (pyOrOpt role (str "member")) ≥ rolePower minimum

-- ---------------------------------------------------------------------
-- markdown_to_html and format_message_row
-- ---------------------------------------------------------------------

/-- Replacement table of Python `html.escape(s)` (quote=True). -/
def escapeChar (c : Char) : Str :=
  if c = '&' then str "&amp;"
  else if c = '<' then str "&lt;"
  else if c = '>' then str "&gt;"
  else if c = '"' then str "&quot;"
  else if c = '\'' then str "&#x27;"
  else [c]

/-- Python `html.escape` applied character by character (the staged
`str.replace` calls of the library are equivalent to this map because
no replacement text contains a character escaped by a later stage). -/
def pyEscape (s : Str) : Str := s.flatMap escapeChar

/-- Close of a lazy `\*\*(.+?)\*\*` match: after the opening `**`,
consume at least one character (`.` excludes a newline) and stop at the
earliest point where the remaining text starts with `**`.  Returns the
text after the closing `**`. -/
def boldClose : Str → Option Str
  | [] => none
  | c :: rest =>
    if c = '\n' then none
    else if rest.take 2 = str "**" then some (rest.drop 2)
    else boldClose rest

theorem boldClose_length {l t : Str} (h : boldClose l = some t) :
    t.length < l.length := by
  induction l with
  | nil => simp [boldClose] at h
  | cons c rest ih =>
    by_cases hc : c = '\n'
    · simp [boldClose, hc] at h
    · by_cases hb : rest.take 2 = str "**"
      · simp only [boldClose, if_neg hc, if_pos hb] at h
        cases h
        simp [List.length_drop]
        omega
      · simp only [boldClose, if_neg hc, if_neg hb] at h
        have := ih h
        simp [List.length]
        omega

/-- Close of a lazy `\*(.+?)\*` match: consume at least one
non-newline character, stop at the earliest following `*`. -/
def italClose : Str → Option Str
  | [] => none
  | c :: rest =>
    if c = '\n' then none
    else if rest.take 1 = str "*" then some (rest.drop 1)
    else italClose rest

theorem italClose_length {l t : Str} (h : italClose l = some t) :
    t.length < l.length := by
  induction l with
  | nil => simp [italClose] at h
  | cons c rest ih =>
    by_cases hc : c = '\n'
    · simp [italClose, hc] at h
    · by_cases hb : rest.take 1 = str "*"
      · simp only [italClose, if_neg hc, if_pos hb] at h
        cases h
        simp [List.length_drop]
        omega
      · simp only [italClose, if_neg hc, if_neg hb] at h
        have := ih h
        simp [List.length]
        omega

/-- Scan for the backtick closing a `` `([^`]+)` `` match. -/
def codeCloseAux : Str → Option Str
  | [] => none
  | c :: rest => if c = '`' then some rest else codeCloseAux rest

/-- Close of a greedy `` `([^`]+)` `` match: the content is the run of
characters up to the next backtick and must be non-empty (`[^``]`
does match a newline). -/
def codeClose : Str → Option Str
  | [] => none
  | c :: rest => if c = '`' then none else codeCloseAux rest

theorem codeCloseAux_length {l t : Str} (h : codeCloseAux l = some t) :
    t.length < l.length := by
  induction l with
  | nil => simp [codeCloseAux] at h
  | cons c rest ih =>
    by_cases hc : c = '`'
    · simp only [codeCloseAux, if_pos hc] at h
      cases h
      simp
    · simp only [codeCloseAux, if_neg hc] at h
      have := ih h
      simp [List.length]
      omega

theorem codeClose_length {l t : Str} (h : codeClose l = some t) :
    t.length < l.length := by
  cases l with
  | nil => simp [codeClose] at h
  | cons c rest =>
    by_cases hc : c = '`'
    · simp [codeClose, hc] at h
    · simp only [codeClose, if_neg hc] at h
      have := codeCloseAux_length h
      simp [List.length]
      omega

/-- Pass `re.sub(r"\*\*(.+?)\*\*", r"<strong>\\1</strong>", text)`:
the replacement template escapes the backslash, so every match is
replaced by the literal text `<strong>\1</strong>` (no backreference).
A position opens a match when it carries `**`; on no lazy close the
scan advances one character, as `re.sub` does. -/
def subBold : Str → Str
  | [] => []
  | c :: rest =>
    if c = '*' ∧ rest.take 1 = str "*" then
      match h : boldClose (rest.drop 1) with
      | some tail => str "<strong>\\1</strong>" ++ subBold tail
      | none => c :: subBold rest
    else c :: subBold rest
termination_by s => s.length
decreasing_by
  · simp [List.length]
    have h1 := boldClose_length h
    have h2 : (rest.drop 1).length ≤ rest.length := by
      simp [List.length_drop]
    omega
  · simp [List.length]
  · simp [List.length]

/-- Pass `re.sub(r"\*(.+?)\*", r"<em>\\1</em>", text)`. -/
def subItal : Str → Str
  | [] => []
  | c :: rest =>
    if c = '*' then
      match h : italClose rest with
      | some tail => str "<em>\\1</em>" ++ subItal tail
      | none => c :: subItal rest
    else c :: subItal rest
termination_by s => s.length
decreasing_by
  · simp [List.length]
    have := italClose_length h
    omega
  · simp [List.length]
  · simp [List.length]

/-- Pass ``re.sub(r"`([^`]+)`", r"<code>\\1</code>", text)``. -/
def subCode : Str → Str
  | [] => []
  | c :: rest =>
    if c = '`' then
      match h : codeClose rest with
      | some tail => str "<code>\\1</code>" ++ subCode tail
      | none => c :: subCode rest
    else c :: subCode rest
termination_by s => s.length
decreasing_by
  · simp [List.length]
    have := codeClose_length h
    omega
  · simp [List.length]
  · simp [List.length]

/-- Python `text.replace("\n", "<br>")`. -/
def nlRepl (s : Str) : Str :=
  s.flatMap (fun c => if c = '\n' then str "<br>" else [c])

/-- Helper `markdown_to_html` of `src/app.py`: escape, then the three
regex substitutions, then the newline replacement. -/
def markdown_to_html (text : Str) : Str :=
  nlRepl (subCode (subItal (subBold (pyEscape text))))

/-- Result of `format_message_row`: the message row with the rendered
`html` field and, on the wire, a `reactions` list.  Resolution of
attachment and voice URLs (`url_for`) is an external collaborator and
is not modelled. -/
structure FormattedMsg where
  row : MsgRow
  html : Str
  reactions : List (Str × Nat)
deriving DecidableEq, Repr

/-- Helper `format_message_row` of `src/app.py` restricted to the
fields the realtime layer inspects: it attaches
`html = markdown_to_html(text)` to the row. -/
def format_message_row (m : MsgRow) (reactions : List (Str × Nat)) : FormattedMsg :=
  ⟨m, markdown_to_html m.text, reactions⟩

-- ---------------------------------------------------------------------
-- Ephemeral state and broadcasts
-- ---------------------------------------------------------------------

/-- Value stored in `cursor_positions[code][sid]`. -/
structure CursorVal where
  author : Str
  x : Option Int
  y : Option Int
  color : Option Str
deriving DecidableEq, Repr

/-- Snapshot payload of the `board_state` reply (fields the claims
inspect; member/activity/presence-history fields are carried as raw
rows, attachment URL resolution is external). -/
structure BoardState where
  cards : List CardRow
  messages : List FormattedMsg
  theme : Str
  title : Str
  members : List MemberRow
  channels : List Str
  role : Option Str
deriving DecidableEq, Repr

/-- Payloads of the server→client events emitted by the handlers under
study. -/
inductive Event where
  | presence (count : Nat) (names : List Str)
  | typing_sig (code : Str) (authors : List Str)
  | cursors_sig (entries : List CursorVal)
  | card_added (card : CardRow)
  | card_updated (card : CardRow)
  | chat_added (msg : FormattedMsg)
  | chat_pinned (msg : FormattedMsg)
  | chat_reactions (messageId : Nat) (tally : List (Str × Nat))
  | chat_deleted (id : Nat)
  | dm_reactions (messageId : Nat) (tally : List (Str × Nat))
  | theme_changed (theme : Str)
  | title_changed (title : Str)
  | board_state (state : BoardState)
  | dm_new (msg : DmMsgRow)
  | group_new (msg : GroupMsgRow)
deriving DecidableEq, Repr

/-- One `socketio.emit(...)` call: the payload, the target room and
whether the sender also receives it (`include_self`). -/
structure Emit where
  room : Str
  ev : Event
  selfEcho : Bool
deriving DecidableEq, Repr

/-- Discriminator for `presence` broadcasts. -/
def isPresenceEmit (em : Emit) : Bool :=
  match em.ev with
  | Event.presence _ _ => true
  | _ => false

/-- Helper `board_room` of `src/app.py`. -/
def board_room (code : Str) : Str := str "board_" ++ code

/-- Helper `dm_room` of `src/app.py`: stable sorted pairing of the two
user ids. -/
def dm_room (a b : Nat) : Str :=
  str "dm_" ++ (Nat.repr (min a b)).toList ++ str "_" ++ (Nat.repr (max a b)).toList

/-- The process-local mutable maps of the board realtime layer:
`presence`, `presence_names`, `typing_state`, `cursor_positions` of
`src/app.py`. -/
structure Ephem where
  presence : List (Str × List Nat)
  presence_names : List (Str × List (Nat × Str))
  typing_state : List (Str × List (Nat × Str))
  cursor_positions : List (Str × List (Nat × CursorVal))
deriving DecidableEq, Repr

/-- The empty ephemeral state (process start). -/
def Ephem.empty : Ephem := ⟨[], [], [], []⟩

/-- Member set of a room (`presence.get(code, set())`). -/
def presOf (s : Ephem) (code : Str) : List Nat := agetD s.presence code []

/-- Typing map of a room (`typing_state.get(code, {})`). -/
def typingOf (s : Ephem) (code : Str) : List (Nat × Str) := agetD s.typing_state code []

/-- Cursor map of a room (`cursor_positions.get(code, {})`). -/
def cursorsOf (s : Ephem) (code : Str) : List (Nat × CursorVal) :=
  agetD s.cursor_positions code []

/-- Display-name map of a room (`presence_names.get(code, {})`). -/
def namesOf (s : Ephem) (code : Str) : List (Nat × Str) := agetD s.presence_names code []

/-- Payload list `sorted([n for n in presence_names.get(code, {}).values() if n])`. -/
def presenceNamesPayload (names : List (Nat × Str)) : List Str :=
  pySortStr ((avals names).filter (fun n => n ≠ []))

/-- Payload list `[n for n in typing_state.get(code, {}).values() if n]`. -/
def typingPayload (ty : List (Nat × Str)) : List Str :=
  (avals ty).filter (fun n => n ≠ [])

/-- Payload list `list(cursor_positions.get(code, {}).values())`. -/
def cursorsPayload (cur : List (Nat × CursorVal)) : List CursorVal := avals cur

-- ---------------------------------------------------------------------
-- Ephemeral-only handlers: typing, stop_typing, cursor_move
-- ---------------------------------------------------------------------

/-- Handler `typing_event` of `src/app.py` (`@socketio.on("typing")`):
records the sender's author name in the room's typing map — with no
membership check — and broadcasts the author list, excluding the
sender. -/
def typing_event (sid : Nat) (code : Option Str) (author : Option Str) (s : Ephem) :
    Ephem × List Emit :=
  let authorV := (pyOrOpt author (str "Anon")).take 32
  match code with
  | none => (s, [])
  | some c =>
    if c = [] then (s, [])
    else
      let ty := aupdate s.typing_state c [] (fun m => dset m sid authorV)
      ({ s with typing_state := ty },
       [⟨board_room c, .typing_sig c (typingPayload (agetD ty c [])), false⟩])

/-- Handler `typing_stop` of `src/app.py` (`@socketio.on("stop_typing")`). -/
def typing_stop (sid : Nat) (code : Option Str) (s : Ephem) : Ephem × List Emit :=
  match code with
  | none => (s, [])
  | some c =>
    if c = [] then (s, [])
    else
      let ty := aadjust s.typing_state c (fun m => dpop m sid)
      ({ s with typing_state := ty },
       [⟨board_room c, .typing_sig c (typingPayload (agetD ty c [])), false⟩])

/-- Handler `cursor_move` of `src/app.py`: last-write-wins entry in the
room's cursor map — again with no membership check — and a broadcast
excluding the sender. -/
def cursor_move (sid : Nat) (code : Option Str) (author : Option Str)
    (x y : Option Int) (color : Option Str) (s : Ephem) : Ephem × List Emit :=
  let authorV := (pyOrOpt author (str "Anon")).take 32
  match code with
  | none => (s, [])
  | some c =>
    if c = [] then (s, [])
    else
      let cur := aupdate s.cursor_positions c []
        (fun m => dset m sid ⟨authorV, x, y, color⟩)
      ({ s with cursor_positions := cur },
       [⟨board_room c, .cursors_sig (cursorsPayload (agetD cur c [])), false⟩])

-- ---------------------------------------------------------------------
-- Disconnect
-- ---------------------------------------------------------------------

/-- Accumulated result of the board loop of `ws_disconnect`. -/
structure DiscRes where
  pres : List (Str × List Nat)
  names : List (Str × List (Nat × Str))
  ty : List (Str × List (Nat × Str))
  cur : List (Str × List (Nat × CursorVal))
  leaves : List PresenceRow
  emits : List Emit
deriving DecidableEq, Repr

/-- Loop `for code, sids in list(presence.items())` of `ws_disconnect`:
for each room whose member set contains the disconnecting sid, remove
it from the member set and pop its entry from the name, typing and
cursor maps of that room, record a `leave` presence row for an
identified user on an existing board, and emit the presence, typing
and cursors broadcasts for the room. -/
def disc_go (sid : Nat) (u : Option Nat) (db : Db) :
    List (Str × List Nat) → List (Str × List (Nat × Str)) →
    List (Str × List (Nat × Str)) → List (Str × List (Nat × CursorVal)) → DiscRes
  | [], names, ty, cur => ⟨[], names, ty, cur, [], []⟩
  | (code, sids) :: rest, names, ty, cur =>
    if sid ∈ sids then
      let sids' := sids.erase sid
      let names' := aadjust names code (fun m => dpop m sid)
      let ty' := aadjust ty code (fun m => dpop m sid)
      let cur' := aadjust cur code (fun m => dpop m sid)
      let leaves : List PresenceRow :=
        match get_board_by_code db code, u with
        | some b, some uid => [⟨b.id, uid, str "leave", none⟩]
        | _, _ => []
      let evs : List Emit :=
        [⟨board_room code, .presence sids'.length (presenceNamesPayload (agetD names' code [])), true⟩,
         ⟨board_room code, .typing_sig code (typingPayload (agetD ty' code [])), true⟩,
         ⟨board_room code, .cursors_sig (cursorsPayload (agetD cur' code [])), true⟩]
      let r := disc_go sid u db rest names' ty' cur'
      ⟨(code, sids') :: r.pres, r.names, r.ty, r.cur, leaves ++ r.leaves, evs ++ r.emits⟩
    else
      let r := disc_go sid u db rest names ty cur
      ⟨(code, sids) :: r.pres, r.names, r.ty, r.cur, r.leaves, r.emits⟩

/-- Handler `ws_disconnect` of `src/app.py`, board-room part.  The
`user_sids` / `dm_typing_state` / `group_typing_state` cleanup concerns
DM and group rooms keyed by identity, not board rooms keyed by
connection, and is outside the claims under study. -/
def ws_disconnect (sid : Nat) (u : Option Nat) (db : Db) (s : Ephem) :
    Ephem × Db × List Emit :=
  let r := disc_go sid u db s.presence s.presence_names s.typing_state s.cursor_positions
  (⟨r.pres, r.names, r.ty, r.cur⟩,
   { db with presence_history := db.presence_history ++ r.leaves },
   r.emits)

-- ---------------------------------------------------------------------
-- Board snapshot (join_board)
-- ---------------------------------------------------------------------

/-- Sort key `COALESCE(cards.order_index, cards.id)` of the snapshot
card query. -/
def cardKey (c : CardRow) : Int := c.order_index.getD (c.id : Int)

/-- Card list of the snapshot:
`SELECT cards.* ... WHERE boards.code = ? ORDER BY COALESCE(cards.order_index, cards.id) ASC`. -/
def snapshot_cards (db : Db) (code : Str) : List CardRow :=
  List.insertionSort (fun a b => cardKey a ≤ cardKey b)
    (db.cards.filter (fun c => db.boards.any (fun b => b.id = c.board_id ∧ b.code = code)))

/-- Message list of the snapshot before delivery filtering:
`SELECT messages.* ... WHERE boards.code = ? ORDER BY messages.id DESC LIMIT 200`. -/
def recent_messages (db : Db) (code : Str) : List MsgRow :=
  (List.insertionSort (fun a b => b.id ≤ a.id)
    (db.messages.filter (fun m => db.boards.any (fun b => b.id = m.board_id ∧ b.code = code)))).take 200

/-- Messages delivered in the snapshot: the recent messages reversed to
oldest-first, skipping the soft-deleted ones
(`for m in reversed(messages): if m.get("deleted_at"): continue`). -/
def snapshot_messages (db : Db) (code : Str) : List MsgRow :=
  (recent_messages db code).reverse.filter (fun m => m.deleted_at = none)

/-- Count of one `GROUP BY message_id, emoji` bucket. -/
def reaction_count (rs : List Reaction) (mid : Nat) (e : Str) : Nat :=
  (rs.filter (fun r => r.message_id = mid ∧ r.emoji = e)).length

/-- Per-emoji tally of a message, as broadcast and as attached to
snapshot messages. -/
def reaction_tally (rs : List Reaction) (mid : Nat) : List (Str × Nat) :=
  (((rs.filter (fun r => r.message_id = mid)).map (·.emoji)).dedup).map
    (fun e => (e, reaction_count rs mid e))

/-- Formatted snapshot messages with their reaction tallies. -/
def snapshot_formatted (db : Db) (code : Str) : List FormattedMsg :=
  (snapshot_messages db code).map
    (fun m => format_message_row m (reaction_tally db.message_reactions m.id))

/-- Python `a or b` on lists (the empty list is falsy). -/
def pyOrList {α : Type} [DecidableEq α] (a b : List α) : List α := if a = [] then b else a

/-- Channel list of the snapshot: `sorted(channels) or ["general"]`
where each delivered message contributes `channel or "general"`. -/
def snapshot_channels (db : Db) (code : Str) : List Str :=
  pyOrList
    (pySortStr (((snapshot_messages db code).map (fun m => pyOr m.channel (str "general"))).dedup))
    [str "general"]

/-- Room used for a private reply (`emit` without a room targets the
requesting connection). -/
def self_room (sid : Nat) : Str := (Nat.repr sid).toList

/-- Payload of the `join_board` event. -/
structure JoinData where
  code : Option Str
  clientName : Option Str
deriving DecidableEq, Repr

/-- Durable side effects of `join_board` before the snapshot reads:
an authenticated requester is enrolled via `ensure_board_member`
(default role `member`) and a `join` presence row is recorded. -/
def join_db_update (me : Option Nat) (bid : Nat) (client_name : Str) (db : Db) : Db :=
  match me with
  | some uid =>
    let dbe := ensure_board_member db bid uid (str "member")
    { dbe with presence_history :=
        dbe.presence_history ++ [⟨bid, uid, str "join", some client_name⟩] }
  | none => db

/-- Role field of the snapshot:
`get_member_role(b["id"], me["id"]) if me else "viewer"`, read from the
storage state after `join_db_update` ran. -/
def join_role (db1 : Db) (bid : Nat) (me : Option Nat) : Option Str :=
  match me with
  | some uid => get_member_role db1 bid uid
  | none => some (str "viewer")

/-- Handler `join_board` of `src/app.py`: validates the board code,
auto-enrols an authenticated requester (`ensure_board_member`, default
role `member`) and records a `join` presence row, admits the connection
to the room maps, assembles the snapshot and emits it privately, then
broadcasts presence.  The client display name is
`((data or {}).get("clientName") or "Anon")[:24]`. -/
def join_board_ev (sid : Nat) (me : Option Nat) (d : JoinData) (db : Db) (s : Ephem) :
    Db × Ephem × List Emit × Option Str :=
  let client_name := (pyOrOpt d.clientName (str "Anon")).take 24
  let codeV := d.code.getD []
  match get_board_by_code db codeV with
  | none => (db, s, [], some (str "Invalid board code"))
  | some b =>
    if codeV = [] then (db, s, [], some (str "Invalid board code"))
    else
      let db1 := join_db_update me b.id client_name db
      let pres := aupdate s.presence codeV [] (fun l => sadd l sid)
      let names := aupdate s.presence_names codeV [] (fun m => dset m sid client_name)
      let s' := { s with presence := pres, presence_names := names }
      let role := join_role db1 b.id me
      let bs : BoardState :=
        { cards := snapshot_cards db1 codeV
          messages := snapshot_formatted db1 codeV
          theme := b.theme
          title := b.title
          members := db1.board_members.filter (fun r => r.board_id = b.id)
          channels := snapshot_channels db1 codeV
          role := role }
      (db1, s',
       [⟨self_room sid, .board_state bs, true⟩,
        ⟨board_room codeV, .presence (presOf s' codeV).length
            (presenceNamesPayload (namesOf s' codeV)), true⟩],
       none)

-- ---------------------------------------------------------------------
-- Card handlers
-- ---------------------------------------------------------------------

/-- Payload of the `create_card` event. -/
structure CreateCardData where
  code : Option Str
  text : Option Str
  tag : Option Str
  author : Option Str
  attachment : Option Str
deriving DecidableEq, Repr

/-- Handler `create_card_ev` of `src/app.py`: truncates text/tag/author
to 280/16/32, computes `COALESCE(MAX(order_index), -1) + 1` over the
board's cards, inserts the card (votes default `0`) and broadcasts
`card_added`. -/
def create_card_ev (me : Option Nat) (d : CreateCardData) (db : Db) :
    Db × List Emit × Option Str :=
  let text := (pyStrip (d.text.getD [])).take 280
  let tag := (pyStrip (d.tag.getD [])).take 16
  let author := (pyStrip (d.author.getD [])).take 32
  let codeV := d.code.getD []
  if codeV = [] ∨ text = [] then (db, [], some (str "Missing code or text"))
  else
    match get_board_by_code db codeV with
    | none => (db, [], some (str "Board not found"))
    | some b =>
      let next_order :=
        pyOrZero ((((db.cards.filter (fun c => c.board_id = b.id)).filterMap
          (·.order_index)).foldr max (-1)) + 1)
      let cid := newId (db.cards.map (·.id))
      let card : CardRow := ⟨cid, b.id, author, text, tag, some 0, some next_order, d.attachment⟩
      let act : ActivityRow := ⟨b.id, me, str "card_created"⟩
      let db' := { db with
                    cards := db.cards ++ [card]
                    board_activity := db.board_activity ++ [act] }
      (db', [⟨board_room codeV, .card_added card, true⟩], none)

/-- Python exceptions that escape a handler. -/
inductive PyExc where
  | nameError (name : Str)
  | typeError
deriving DecidableEq, Repr

/-- Outcome channel of a handler that can raise. -/
inductive HRes where
  | ok
  | errEmit (msg : Str)
  | exc (e : PyExc)
deriving DecidableEq, Repr

/-- Handler `vote_card_ev` of `src/app.py`.  The `UPDATE cards SET
votes = COALESCE(votes, 0) + 1 WHERE id=?` is committed; the card is
then re-read; but the following statement `log_activity(b["id"], ...)`
reads the local name `b`, which is never assigned in this function, so
the handler raises `NameError` and the `socketio.emit("card_updated",
...)` on its last line is never executed.  (When no card has the given
id, `dict(cur.fetchone())` raises `TypeError` first.) -/
def vote_card_ev (me : Option Nat) (code : Option Str) (cardId : Option Nat) (db : Db) :
    Db × List Emit × HRes :=
  let codeV := code.getD []
  let cid := cardId.getD 0
  if codeV = [] ∨ cid = 0 then (db, [], .errEmit (str "Missing code or cardId"))
  else
    let bump := fun (c : CardRow) =>
      if c.id = cid then { c with votes := some (c.votes.getD 0 + 1) } else c
    let db' := { db with cards := db.cards.map bump }
    match db'.cards.find? (fun c => c.id = cid) with
    | none => (db', [], .exc .typeError)
    | some _card => (db', [], .exc (.nameError (str "b")))

-- ---------------------------------------------------------------------
-- Chat handlers
-- ---------------------------------------------------------------------

/-- The acting identity as seen by a handler (`current_user()` result
restricted to the fields the handlers read). -/
structure UserCtx where
  id : Nat
  username : Str
deriving DecidableEq, Repr

/-- Payload of the `send_chat` event.  The attachment list is carried
opaquely as its serialized form. -/
structure SendChatData where
  code : Option Str
  author : Option Str
  text : Option Str
  channel : Option Str
  replyTo : Option Nat
  attachments : Option Str
  voice : Option Str
deriving DecidableEq, Repr

/-- Handler `send_chat_ev` of `src/app.py`: truncates author/text/
channel to 32/500/32, inserts the message and broadcasts `chat_added`
with an empty reaction list. -/
def send_chat_ev (me : Option Nat) (d : SendChatData) (db : Db) :
    Db × List Emit × Option Str :=
  let author := (pyStrip (d.author.getD [])).take 32
  let text := (pyStrip (d.text.getD [])).take 500
  let channel := (pyStrip (pyOrOpt d.channel (str "general"))).take 32
  let codeV := d.code.getD []
  if codeV = [] ∨ text = [] then (db, [], some (str "Missing code or text"))
  else
    match get_board_by_code db codeV with
    | none => (db, [], some (str "Board not found"))
    | some b =>
      let mid := newId (db.messages.map (·.id))
      let msg : MsgRow :=
        ⟨mid, b.id, author, text, pyOr channel (str "general"), d.replyTo, 0,
         d.attachments, d.voice, none, none⟩
      let act : ActivityRow := ⟨b.id, me, str "message_posted"⟩
      let db' := { db with
                    messages := db.messages ++ [msg]
                    board_activity := db.board_activity ++ [act] }
      (db', [⟨board_room codeV, .chat_added (format_message_row msg []), true⟩], none)

/-- Reaction toggle shared by `chat_react` and `dm_react`: probe for
the unique `(message_id, user_id, emoji)` row; delete the matching rows
when present, insert the row otherwise. -/
def toggle_reaction (rs : List Reaction) (x : Reaction) : List Reaction :=
  if x ∈ rs then rs.filter (fun r => r ≠ x) else rs ++ [x]

/-- Handler `chat_react` of `src/app.py`: authenticated toggle of a
board-chat reaction followed by a broadcast of the full per-emoji
tally (the board code is recovered from the message when absent). -/
def chat_react_ev (me : Option Nat) (code : Option Str) (messageId : Option Nat)
    (emoji : Option Str) (db : Db) : Db × List Emit × Option Str :=
  match me with
  | none => (db, [], some (str "auth required"))
  | some uid =>
    let emojiV := (pyStrip (emoji.getD [])).take 16
    let mid := messageId.getD 0
    if mid = 0 ∨ emojiV = [] then (db, [], some (str "missing reaction data"))
    else
      match db.messages.find? (fun m => m.id = mid) with
      | none => (db, [], some (str "message missing"))
      | some m =>
        let code? : Option Str :=
          if code.getD [] = [] then (db.boards.find? (fun b => b.id = m.board_id)).map (·.code)
          else code
        let rs' := toggle_reaction db.message_reactions ⟨mid, uid, emojiV⟩
        let tally := reaction_tally rs' mid
        let act : ActivityRow := ⟨m.board_id, some uid, str "message_reaction"⟩
        let db' := { db with
                      message_reactions := rs'
                      board_activity := db.board_activity ++ [act] }
        let emits : List Emit :=
          match code? with
          | some c => [⟨board_room c, .chat_reactions mid tally, true⟩]
          | none => []
        (db', emits, none)

/-- Handler `dm_react` of `src/app.py`: the DM analogue of
`chat_react`, broadcast to the sorted-pair DM room. -/
def dm_react_ev (me : Option Nat) (messageId : Option Nat) (emoji : Option Str)
    (db : Db) : Db × List Emit × Option Str :=
  match me with
  | none => (db, [], some (str "auth required"))
  | some uid =>
    let emojiV := (pyStrip (emoji.getD [])).take 16
    let mid := messageId.getD 0
    if mid = 0 ∨ emojiV = [] then (db, [], some (str "missing data"))
    else
      match db.dm_messages.find? (fun m => m.id = mid) with
      | none => (db, [], some (str "missing message"))
      | some m =>
        let rs' := toggle_reaction db.dm_reactions ⟨mid, uid, emojiV⟩
        let tally := reaction_tally rs' mid
        ({ db with dm_reactions := rs' },
         [⟨dm_room m.sender_id m.receiver_id, .dm_reactions mid tally, true⟩], none)

/-- Handler `chat_pin` of `src/app.py`: requires an authenticated user
whose role on the board satisfies `has_role(role, "moderator")`; there
is no author-of-the-message exception.  On success flips the pinned
flag (`CASE WHEN pinned=1 THEN 0 ELSE 1`) and broadcasts the updated
message. -/
def chat_pin_ev (me : Option UserCtx) (code : Option Str) (messageId : Option Nat)
    (db : Db) : Db × List Emit × Option Str :=
  match me with
  | none => (db, [], some (str "auth required"))
  | some u =>
    let codeV := code.getD []
    let mid := messageId.getD 0
    if codeV = [] ∨ mid = 0 then (db, [], some (str "missing data"))
    else
      match get_board_by_code db codeV with
      | none => (db, [], some (str "board missing"))
      | some board =>
        let role := get_member_role db board.id u.id
        if ¬ has_role role (str "moderator") then (db, [], some (str "no permission"))
        else
          let flip := fun (m : MsgRow) =>
            if m.id = mid ∧ m.board_id = board.id then
              { m with pinned := if m.pinned = 1 then 0 else 1 }
            else m
          let msgs := db.messages.map flip
          let db' := { db with messages := msgs }
          match msgs.find? (fun m => m.id = mid) with
          | none => (db', [], none)
          | some row =>
            let act : ActivityRow := ⟨board.id, some u.id, str "message_pin"⟩
            ({ db' with board_activity := db'.board_activity ++ [act] },
             [⟨board_room codeV, .chat_pinned (format_message_row row []), true⟩], none)

/-- Handler `chat_delete` of `src/app.py`: author-or-moderator gated
soft delete — `UPDATE messages SET deleted_at=datetime('now') WHERE
id=?` leaves the row in storage. -/
def chat_delete_ev (me : Option UserCtx) (code : Option Str) (messageId : Option Nat)
    (now : Nat) (db : Db) : Db × List Emit × Option Str :=
  match me with
  | none => (db, [], some (str "auth required"))
  | some u =>
    let codeV := code.getD []
    let mid := messageId.getD 0
    if codeV = [] ∨ mid = 0 then (db, [], some (str "missing data"))
    else
      match get_board_by_code db codeV with
      | none => (db, [], some (str "board missing"))
      | some board =>
        match db.messages.find? (fun m => m.id = mid ∧ m.board_id = board.id) with
        | none => (db, [], some (str "message missing"))
        | some row =>
          let role := get_member_role db board.id u.id
          if row.author ≠ u.username ∧ ¬ has_role role (str "moderator") then
            (db, [], some (str "no permission"))
          else
            let mark := fun (m : MsgRow) =>
              if m.id = mid then { m with deleted_at := some now } else m
            let act : ActivityRow := ⟨board.id, some u.id, str "message_delete"⟩
            ({ db with
                messages := db.messages.map mark
                board_activity := db.board_activity ++ [act] },
             [⟨board_room codeV, .chat_deleted mid, true⟩], none)

-- ---------------------------------------------------------------------
-- Theme and title handlers
-- ---------------------------------------------------------------------

/-- Set `ALLOWED_THEMES` of `src/app.py`. -/
def ALLOWED_THEMES : List Str :=
  [str "ocean", str "mint", str "sunset", str "violet", str "slate"]

/-- Python `str.lower()`. -/
def pyLower (s : Str) : Str := s.map Char.toLower

/-- Handler `set_theme_ev` of `src/app.py`: no authentication,
membership or role check of any kind — the theme is validated against
`ALLOWED_THEMES`, the board resolved by code, the update committed and
`theme_changed` broadcast. -/
def set_theme_ev (code : Option Str) (theme : Option Str) (db : Db) :
    Db × List Emit × Option Str :=
  let themeV := pyLower (pyStrip (pyOrOpt theme (str "ocean")))
  if themeV ∉ ALLOWED_THEMES then (db, [], some (str "Invalid theme"))
  else
    match get_board_by_code db (code.getD []) with
    | none => (db, [], some (str "Board not found"))
    | some b =>
      let put := fun (x : BoardRow) => if x.id = b.id then { x with theme := themeV } else x
      ({ db with boards := db.boards.map put },
       [⟨board_room (code.getD []), .theme_changed themeV, true⟩], none)

/-- Handler `set_title_ev` of `src/app.py`: no authentication,
membership or role check — the title is stripped, truncated to 80
characters (an empty result becomes `"Team Board"`), committed and
`title_changed` broadcast. -/
def set_title_ev (code : Option Str) (title : Option Str) (db : Db) :
    Db × List Emit × Option Str :=
  let title0 := pyStrip (title.getD [])
  if code.getD [] = [] then (db, [], some (str "Missing board code"))
  else
    match get_board_by_code db (code.getD []) with
    | none => (db, [], some (str "Board not found"))
    | some b =>
      let titleV := pyOr (title0.take 80) (str "Team Board")
      let put := fun (x : BoardRow) => if x.id = b.id then { x with title := titleV } else x
      ({ db with boards := db.boards.map put },
       [⟨board_room (code.getD []), .title_changed titleV, true⟩], none)

-- ---------------------------------------------------------------------
-- DM and group handlers
-- ---------------------------------------------------------------------

/-- Helper `get_user_by_username` of `src/app.py`. -/
def get_user_by_username (db : Db) (name : Str) : Option UserRow :=
  db.users.find? (fun u => u.username = name)

/-- Handler `dm_send` of `src/app.py`: text truncated to 1000, the
message inserted and `dm_new` broadcast to the sorted-pair DM room. -/
def dm_send_ev (me : Option UserCtx) (toName : Option Str) (text0 : Option Str)
    (replyTo : Option Nat) (voice : Option Str) (db : Db) :
    Db × List Emit × Option Str :=
  match me with
  | none => (db, [], some (str "auth required"))
  | some u =>
    let text := (pyStrip (text0.getD [])).take 1000
    if toName.getD [] = [] ∨ (text = [] ∧ voice = none) then
      (db, [], some (str "missing content"))
    else
      match get_user_by_username db (pyLower (toName.getD [])) with
      | none => (db, [], some (str "other not found"))
      | some other =>
        let mid := newId (db.dm_messages.map (·.id))
        let msg : DmMsgRow := ⟨mid, u.id, other.id, text, replyTo, voice, none, none, none⟩
        ({ db with dm_messages := db.dm_messages ++ [msg] },
         [⟨dm_room u.id other.id, .dm_new msg, true⟩], none)

/-- Helper `group_socket_room` of `src/app.py`. -/
def group_socket_room (slug : Str) : Str := str "group_" ++ slug

/-- Handler `group_send` of `src/app.py`: text truncated to 800, the
message inserted and `group_new` broadcast to the group room. -/
def group_send_ev (me : Option UserCtx) (slug : Option Str) (text0 : Option Str)
    (db : Db) : Db × List Emit × Option Str :=
  match me with
  | none => (db, [], some (str "auth required"))
  | some u =>
    let text := (pyStrip (text0.getD [])).take 800
    if slug.getD [] = [] ∨ text = [] then (db, [], some (str "missing data"))
    else
      match db.group_rooms.find? (fun r => r.slug = slug.getD []) with
      | none => (db, [], some (str "group missing"))
      | some room =>
        let mid := newId (db.group_messages.map (·.id))
        let msg : GroupMsgRow := ⟨mid, room.id, u.id, u.username, text⟩
        ({ db with group_messages := db.group_messages ++ [msg] },
         [⟨group_socket_room room.slug, .group_new msg, true⟩], none)

-- ---------------------------------------------------------------------
-- The ephemeral subset invariant (spec section 3, Invariants)
-- ---------------------------------------------------------------------

/-- Spec invariant, typing half: every connection holding a typing
entry for a room is a member of that room. -/
def TypingSubset (s : Ephem) : Prop :=
  ∀ e ∈ s.typing_state, ∀ p ∈ e.2, p.1 ∈ presOf s e.1

/-- Spec invariant, cursor half. -/
def CursorSubset (s : Ephem) : Prop :=
  ∀ e ∈ s.cursor_positions, ∀ p ∈ e.2, p.1 ∈ presOf s e.1

/-- Spec invariant: ephemeral per-connection entries (typing, cursor)
are a subset of the room's current membership. -/
def RoomInv (s : Ephem) : Prop := TypingSubset s ∧ CursorSubset s

/-- Well-formedness facts guaranteed by the Python dict/set
representation: dict keys are unique and room member sets hold no
duplicates. -/
def EphemWF (s : Ephem) : Prop :=
  (akeys s.presence).Nodup ∧ (∀ e ∈ s.presence, e.2.Nodup)
  ∧ (akeys s.typing_state).Nodup ∧ (akeys s.cursor_positions).Nodup

instance (s : Ephem) : Decidable (TypingSubset s) := by
  unfold TypingSubset; infer_instance

instance (s : Ephem) : Decidable (CursorSubset s) := by
  unfold CursorSubset; infer_instance

instance (s : Ephem) : Decidable (RoomInv s) := by
  unfold RoomInv; infer_instance

instance (s : Ephem) : Decidable (EphemWF s) := by
  unfold EphemWF; infer_instance

-- ---------------------------------------------------------------------
-- Concrete fixtures used by witnesses and counterexamples
-- ---------------------------------------------------------------------

/-- Example board with join code `ab`. -/
def exBoard : BoardRow := ⟨1, str "ab", str "Team Board", str "ocean", none, none⟩

/-- Example user `alice` (id 7). -/
def exAlice : UserRow := ⟨7, str "alice"⟩

/-- Example user `bob` (id 8). -/
def exBob : UserRow := ⟨8, str "bob"⟩

/-- Example board-chat message authored by `alice`. -/
def exMsg : MsgRow :=
  ⟨3, 1, str "alice", str "hi", str "general", none, 0, none, none, none, none⟩

/-- Example direct message from `alice` to `bob`. -/
def exDm : DmMsgRow := ⟨4, 7, 8, str "yo", none, none, none, none, none⟩

/-- Example group room. -/
def exGroup : GroupRoomRow := ⟨1, str "lobby", str "Community Lounge"⟩

/-- Example storage state: one board on which `alice` holds role
`member`, one chat message, one DM, one group room. -/
def exDb : Db :=
  ⟨[exAlice, exBob], [exBoard], [], [exMsg], [exDm], [exGroup], [],
   [⟨1, 7, str "member"⟩], [], [], [], []⟩

/-- Example storage state like `exDb` but with no chat messages. -/
def exDbNoChat : Db :=
  ⟨[exAlice, exBob], [exBoard], [], [], [exDm], [exGroup], [],
   [⟨1, 7, str "member"⟩], [], [], [], []⟩

/-- Example storage state with no chat messages and no membership rows. -/
def exDbNoMembers : Db :=
  ⟨[exAlice, exBob], [exBoard], [], [], [exDm], [exGroup], [], [], [], [], [], []⟩

-- ---------------------------------------------------------------------
-- General lemmas
-- ---------------------------------------------------------------------

theorem toggle_removes {rs : List Reaction} {x : Reaction} (hx : x ∈ rs) :
    x ∉ toggle_reaction rs x ∧ (toggle_reaction rs x).length < rs.length := by
  simp only [toggle_reaction, if_pos hx]
  refine ⟨by simp, ?_⟩
  refine List.length_filter_lt_length_iff_exists.mpr ?_
  exact ⟨x, hx, by simp⟩

theorem toggle_adds {rs : List Reaction} {x : Reaction} (hx : x ∉ rs) :
    toggle_reaction rs x = rs ++ [x] := by
  simp [toggle_reaction, hx]

theorem toggle_toggle_perm {rs : List Reaction} {x : Reaction}
    (h : rs.count x ≤ 1) :
    (toggle_reaction (toggle_reaction rs x) x).Perm rs := by
  by_cases hx : x ∈ rs
  · have hge : 0 < rs.count x := List.count_pos_iff.mpr hx
    have hcount : rs.count x = 1 := by omega
    have hx2 : x ∉ rs.filter (fun r => r ≠ x) := by simp
    simp only [toggle_reaction, if_pos hx, if_neg hx2]
    rw [List.perm_iff_count]
    intro y
    by_cases hy : y = x
    · subst hy
      rw [List.count_append, List.count_eq_zero.mpr hx2, hcount]
      simp
    · have hxy : x ≠ y := fun habs => hy habs.symm
      rw [List.count_append, List.count_filter (by simp [hy])]
      simp [List.count_singleton', hxy]
  · have hx2 : x ∈ rs ++ [x] := by simp
    rw [toggle_adds hx]
    simp only [toggle_reaction, if_pos hx2]
    rw [List.filter_append]
    have h1 : rs.filter (fun r => r ≠ x) = rs := by
      refine List.filter_eq_self.mpr ?_
      intro a ha
      simp only [ne_eq, decide_eq_true_eq]
      exact fun he => hx (he ▸ ha)
    have h2 : List.filter (fun r => decide (r ≠ x)) [x] = [] := by simp
    rw [h1, h2]
    simp

theorem find?_map_pres {α : Type} (f : α → α) (q : α → Bool)
    (hf : ∀ a, q (f a) = q a) :
    ∀ l : List α, (l.map f).find? q = (l.find? q).map f := by
  intro l
  induction l with
  | nil => rfl
  | cons a l ih =>
    by_cases hq : q a = true
    · rw [List.map_cons, List.find?_cons_of_pos _ (by rw [hf]; exact hq),
        List.find?_cons_of_pos _ hq]
      rfl
    · rw [List.map_cons, List.find?_cons_of_neg _ (by rw [hf]; simpa using hq),
        List.find?_cons_of_neg _ (by simpa using hq), ih]

-- ---------------------------------------------------------------------
-- Claim C1
-- ---------------------------------------------------------------------

/-- Claim C1 (status `code_bug`, evaluation of the code at the failing
input): on a fresh board `ab12cd`, `create_card {text: "Hello"}`
broadcasts `card_added` with `votes=0` and `order_index=0`; each
following `vote_card {cardId: 1}` commits the vote increment to
storage (the final state shows `votes=2`) but raises `NameError` on
the unbound name `b` in the `log_activity` call, so no `card_updated`
broadcast is ever emitted — contrary to the claim that every joined
client receives a final `card_updated` showing `votes=2`. -/
theorem C1_vote_commits_but_never_broadcasts :
    (create_card_ev none ⟨some (str "ab12cd"), some (str "Hello"), none, none, none⟩
        ⟨[], [⟨1, str "ab12cd", str "Team Board", str "ocean", none, none⟩],
         [], [], [], [], [], [], [], [], [], []⟩).2.1
      = [⟨board_room (str "ab12cd"),
          Event.card_added ⟨1, 1, [], str "Hello", [], some 0, some 0, none⟩, true⟩]
    ∧ (vote_card_ev none (some (str "ab12cd")) (some 1)
        (create_card_ev none ⟨some (str "ab12cd"), some (str "Hello"), none, none, none⟩
          ⟨[], [⟨1, str "ab12cd", str "Team Board", str "ocean", none, none⟩],
           [], [], [], [], [], [], [], [], [], []⟩).1).2
      = ([], HRes.exc (PyExc.nameError (str "b")))
    ∧ (vote_card_ev none (some (str "ab12cd")) (some 1)
        (vote_card_ev none (some (str "ab12cd")) (some 1)
          (create_card_ev none ⟨some (str "ab12cd"), some (str "Hello"), none, none, none⟩
            ⟨[], [⟨1, str "ab12cd", str "Team Board", str "ocean", none, none⟩],
             [], [], [], [], [], [], [], [], [], []⟩).1).1).2
      = ([], HRes.exc (PyExc.nameError (str "b")))
    ∧ (vote_card_ev none (some (str "ab12cd")) (some 1)
        (vote_card_ev none (some (str "ab12cd")) (some 1)
          (create_card_ev none ⟨some (str "ab12cd"), some (str "Hello"), none, none, none⟩
            ⟨[], [⟨1, str "ab12cd", str "Team Board", str "ocean", none, none⟩],
             [], [], [], [], [], [], [], [], [], []⟩).1).1).1.cards
      = [⟨1, 1, [], str "Hello", [], some 2, some 0, none⟩] := by
  refine ⟨rfl, rfl, rfl, rfl⟩

-- ---------------------------------------------------------------------
-- Claim C2
-- ---------------------------------------------------------------------

/-- Claim C2 counterexample: `alice` is the author of message 3 and
holds role `member` (below moderator) on board `ab`, yet her
`chat_pin` is answered with `no permission` and the stored state is
unchanged — the author exception claimed for pinning does not exist. -/
theorem C2_counterexample :
    exMsg.author = exAlice.username
    ∧ exMsg ∈ exDb.messages
    ∧ get_member_role exDb exBoard.id exAlice.id = some (str "member")
    ∧ chat_pin_ev (some ⟨exAlice.id, exAlice.username⟩) (some (str "ab"))
        (some exMsg.id) exDb
      = (exDb, [], some (str "no permission")) := by
  refine ⟨rfl, by decide, rfl, rfl⟩

/-- Claim C2 (amended): `chat_pin` is gated on
`has_role(role, "moderator")` alone — the acting identity's authorship
of the message is never consulted.  An identity whose role is below
moderator (author or not) receives `no permission` and the state is
unchanged; an identity with role at least moderator flips the pinned
flag and `chat_pinned` is broadcast. -/
theorem C2_pin_moderator_gated (me : UserCtx) (code : Option Str) (mid : Nat)
    (db : Db) (board : BoardRow) (row : MsgRow)
    (hc : code.getD [] ≠ []) (hm : mid ≠ 0)
    (hb : get_board_by_code db (code.getD []) = some board)
    (hfind : db.messages.find? (fun m => m.id = mid) = some row)
    (hrowb : row.board_id = board.id) :
    (has_role (get_member_role db board.id me.id) (str "moderator") = false →
      chat_pin_ev (some me) code (some mid) db = (db, [], some (str "no permission")))
    ∧ (has_role (get_member_role db board.id me.id) (str "moderator") = true →
      (chat_pin_ev (some me) code (some mid) db).2.2 = none
      ∧ (chat_pin_ev (some me) code (some mid) db).2.1 =
        [⟨board_room (code.getD []),
          Event.chat_pinned (format_message_row
            { row with pinned := if row.pinned = 1 then 0 else 1 } []), true⟩]) := by
  have hrow_id : row.id = mid := by
    have := List.find?_some hfind
    simpa using this
  constructor
  · intro hrole
    simp [chat_pin_ev, hb, hc, hm, hrole]
  · intro hrole
    have hflip : ∀ m : MsgRow,
        (fun m : MsgRow => decide (m.id = mid))
          ((fun m : MsgRow => if m.id = mid ∧ m.board_id = board.id then
            { m with pinned := if m.pinned = 1 then 0 else 1 } else m) m)
        = (fun m : MsgRow => decide (m.id = mid)) m := by
      intro m
      by_cases h : m.id = mid ∧ m.board_id = board.id
      · simp [h, h.1]
      · simp [h]
    have hfind' :
        (db.messages.map (fun m : MsgRow => if m.id = mid ∧ m.board_id = board.id then
            { m with pinned := if m.pinned = 1 then 0 else 1 } else m)).find?
          (fun m => m.id = mid)
        = some ({ row with pinned := if row.pinned = 1 then 0 else 1 }) := by
      rw [find?_map_pres _ _ hflip, hfind]
      simp [hrow_id, hrowb]
    simp [chat_pin_ev, hb, hc, hm, hrole, hfind']

/-- Witness for `C2_pin_moderator_gated` at a concrete input. -/
theorem C2_pin_moderator_gated_witness :
    (has_role (get_member_role exDb exBoard.id 8) (str "moderator") = false →
      chat_pin_ev (some ⟨8, str "bob"⟩) (some (str "ab")) (some 3) exDb
        = (exDb, [], some (str "no permission")))
    ∧ (has_role (get_member_role exDb exBoard.id 8) (str "moderator") = true →
      (chat_pin_ev (some ⟨8, str "bob"⟩) (some (str "ab")) (some 3) exDb).2.2 = none
      ∧ (chat_pin_ev (some ⟨8, str "bob"⟩) (some (str "ab")) (some 3) exDb).2.1 =
        [⟨board_room (str "ab"),
          Event.chat_pinned (format_message_row
            { exMsg with pinned := if exMsg.pinned = 1 then 0 else 1 } []), true⟩]) :=
  C2_pin_moderator_gated ⟨8, str "bob"⟩ (some (str "ab")) 3 exDb exBoard exMsg
    (by decide) (by decide) (by decide) (by decide) (by decide)

-- ---------------------------------------------------------------------
-- Claim C10
-- ---------------------------------------------------------------------

/-- Claim C10: `set_theme_ev` and `set_title_ev` take no identity,
membership or role input at all — mirroring the source, which never
calls `current_user` nor consults the room maps in these handlers — so
the stated behavior holds for every connection, including an anonymous
one that never joined the board's room.  With a valid board code and a
theme from `ALLOWED_THEMES` the theme change is committed and
`theme_changed` broadcast; with a valid board code the title is
committed truncated to 80 characters (an empty title becoming
`"Team Board"`) and `title_changed` broadcast. -/
theorem C10_theme_title_unauthenticated (code ttl : Option Str) (t : Str)
    (db : Db) (b : BoardRow)
    (ht : t ∈ ALLOWED_THEMES)
    (hb : get_board_by_code db (code.getD []) = some b)
    (hc : code.getD [] ≠ []) :
    (set_theme_ev code (some t) db).2.2 = none
    ∧ (set_theme_ev code (some t) db).2.1 =
        [⟨board_room (code.getD []), Event.theme_changed t, true⟩]
    ∧ { b with theme := t } ∈ (set_theme_ev code (some t) db).1.boards
    ∧ (set_title_ev code ttl db).2.2 = none
    ∧ (set_title_ev code ttl db).2.1 =
        [⟨board_room (code.getD []),
          Event.title_changed (pyOr ((pyStrip (ttl.getD [])).take 80) (str "Team Board")),
          true⟩]
    ∧ { b with title := pyOr ((pyStrip (ttl.getD [])).take 80) (str "Team Board") }
        ∈ (set_title_ev code ttl db).1.boards
    ∧ (pyOr ((pyStrip (ttl.getD [])).take 80) (str "Team Board")).length ≤ 80 := by
  have hnorm : pyLower (pyStrip (pyOrOpt (some t) (str "ocean"))) = t := by
    simp only [ALLOWED_THEMES, List.mem_cons, List.not_mem_nil, or_false] at ht
    rcases ht with h | h | h | h | h <;> subst h <;> decide
  have hmem : b ∈ db.boards := List.mem_of_find?_eq_some hb
  have hth : pyLower (pyStrip (pyOrOpt (some t) (str "ocean"))) ∈ ALLOWED_THEMES := by
    rw [hnorm]; exact ht
  refine ⟨?_, ?_, ?_, ?_, ?_, ?_, ?_⟩
  · simp [set_theme_ev, hth, hb, hnorm, ht]
  · simp [set_theme_ev, hth, hb, hnorm, ht]
  · simp only [set_theme_ev, hth, not_true_eq_false, if_false, hb, hnorm, ht]
    have := List.mem_map_of_mem
      (fun x : BoardRow => if x.id = b.id then { x with theme := t } else x) hmem
    simpa using this
  · simp [set_title_ev, hc, hb]
  · simp [set_title_ev, hc, hb]
  · simp only [set_title_ev, hc, if_false, hb]
    have := List.mem_map_of_mem
      (fun x : BoardRow => if x.id = b.id then
        { x with title := pyOr ((pyStrip (ttl.getD [])).take 80) (str "Team Board") }
        else x) hmem
    simpa using this
  · unfold pyOr
    by_cases h : (pyStrip (ttl.getD [])).take 80 = []
    · simp [h, str]
    · simp only [h, if_false]
      exact List.length_take_le 80 _

/-- Witness for `C10_theme_title_unauthenticated` at a concrete input. -/
theorem C10_theme_title_unauthenticated_witness :
    (set_theme_ev (some (str "ab")) (some (str "mint")) exDb).2.2 = none
    ∧ (set_theme_ev (some (str "ab")) (some (str "mint")) exDb).2.1 =
        [⟨board_room ((some (str "ab")).getD []), Event.theme_changed (str "mint"), true⟩]
    ∧ { exBoard with theme := str "mint" }
        ∈ (set_theme_ev (some (str "ab")) (some (str "mint")) exDb).1.boards
    ∧ (set_title_ev (some (str "ab")) (some (str "  Sprint  ")) exDb).2.2 = none
    ∧ (set_title_ev (some (str "ab")) (some (str "  Sprint  ")) exDb).2.1 =
        [⟨board_room ((some (str "ab")).getD []),
          Event.title_changed
            (pyOr ((pyStrip ((some (str "  Sprint  ")).getD [])).take 80) (str "Team Board")),
          true⟩]
    ∧ { exBoard with
          title := pyOr ((pyStrip ((some (str "  Sprint  ")).getD [])).take 80) (str "Team Board") }
        ∈ (set_title_ev (some (str "ab")) (some (str "  Sprint  ")) exDb).1.boards
    ∧ (pyOr ((pyStrip ((some (str "  Sprint  ")).getD [])).take 80) (str "Team Board")).length ≤ 80 :=
  C10_theme_title_unauthenticated (some (str "ab")) (some (str "  Sprint  "))
    (str "mint") exDb exBoard (by decide) (by decide) (by decide)

-- ---------------------------------------------------------------------
-- Claim C6
-- ---------------------------------------------------------------------

/-- Claim C6: toggling the same `(message, user, emoji)` reaction twice
through `chat_react_ev` returns the stored reaction table to a
permutation of its starting value, and hence every per-emoji tally of
the message to its pre-toggle value; a repeated identical reaction
event removes the existing row instead of inserting a duplicate.  The
same holds for `dm_react_ev` over `dm_reactions`.  The count
hypotheses reflect the `UNIQUE(message_id, user_id, emoji)` constraint
of both tables. -/
theorem chat_react_state (uid : Nat) (code : Option Str) (mid : Nat)
    (e0 : Option Str) (db : Db) (m : MsgRow)
    (hmid : mid ≠ 0) (hemoji : (pyStrip (e0.getD [])).take 16 ≠ [])
    (hm : db.messages.find? (fun x => x.id = mid) = some m) :
    (chat_react_ev (some uid) code (some mid) e0 db).1.message_reactions
      = toggle_reaction db.message_reactions ⟨mid, uid, (pyStrip (e0.getD [])).take 16⟩
    ∧ (chat_react_ev (some uid) code (some mid) e0 db).1.messages = db.messages := by
  constructor <;> simp [chat_react_ev, hm, hmid, hemoji]

theorem dm_react_state (uid : Nat) (dmid : Nat) (e1 : Option Str) (db : Db)
    (dm : DmMsgRow)
    (hdmid : dmid ≠ 0) (hdemoji : (pyStrip (e1.getD [])).take 16 ≠ [])
    (hdm : db.dm_messages.find? (fun x => x.id = dmid) = some dm) :
    (dm_react_ev (some uid) (some dmid) e1 db).1.dm_reactions
      = toggle_reaction db.dm_reactions ⟨dmid, uid, (pyStrip (e1.getD [])).take 16⟩
    ∧ (dm_react_ev (some uid) (some dmid) e1 db).1.dm_messages = db.dm_messages := by
  constructor <;> simp [dm_react_ev, hdm, hdmid, hdemoji]

theorem C6_reaction_double_toggle (uid : Nat) (code : Option Str)
    (mid dmid : Nat) (e0 e1 : Option Str) (db : Db) (m : MsgRow) (dm : DmMsgRow)
    (hmid : mid ≠ 0) (hdmid : dmid ≠ 0)
    (hemoji : (pyStrip (e0.getD [])).take 16 ≠ [])
    (hdemoji : (pyStrip (e1.getD [])).take 16 ≠ [])
    (hm : db.messages.find? (fun x => x.id = mid) = some m)
    (hdm : db.dm_messages.find? (fun x => x.id = dmid) = some dm)
    (hcount : db.message_reactions.count ⟨mid, uid, (pyStrip (e0.getD [])).take 16⟩ ≤ 1)
    (hdcount : db.dm_reactions.count ⟨dmid, uid, (pyStrip (e1.getD [])).take 16⟩ ≤ 1) :
    ((chat_react_ev (some uid) code (some mid) e0
        (chat_react_ev (some uid) code (some mid) e0 db).1).1.message_reactions.Perm
      db.message_reactions
    ∧ ∀ em, reaction_count
        (chat_react_ev (some uid) code (some mid) e0
          (chat_react_ev (some uid) code (some mid) e0 db).1).1.message_reactions mid em
      = reaction_count db.message_reactions mid em)
    ∧ (⟨mid, uid, (pyStrip (e0.getD [])).take 16⟩ ∈ db.message_reactions →
        (⟨mid, uid, (pyStrip (e0.getD [])).take 16⟩ : Reaction)
          ∉ (chat_react_ev (some uid) code (some mid) e0 db).1.message_reactions
        ∧ (chat_react_ev (some uid) code (some mid) e0 db).1.message_reactions.length
          < db.message_reactions.length)
    ∧ ((dm_react_ev (some uid) (some dmid) e1
        (dm_react_ev (some uid) (some dmid) e1 db).1).1.dm_reactions.Perm db.dm_reactions
    ∧ ∀ em, reaction_count
        (dm_react_ev (some uid) (some dmid) e1
          (dm_react_ev (some uid) (some dmid) e1 db).1).1.dm_reactions dmid em
      = reaction_count db.dm_reactions dmid em)
    ∧ (⟨dmid, uid, (pyStrip (e1.getD [])).take 16⟩ ∈ db.dm_reactions →
        (⟨dmid, uid, (pyStrip (e1.getD [])).take 16⟩ : Reaction)
          ∉ (dm_react_ev (some uid) (some dmid) e1 db).1.dm_reactions
        ∧ (dm_react_ev (some uid) (some dmid) e1 db).1.dm_reactions.length
          < db.dm_reactions.length) := by
  have hstate1 := chat_react_state uid code mid e0 db m hmid hemoji hm
  have h1r := hstate1.1
  have hm1 : (chat_react_ev (some uid) code (some mid) e0 db).1.messages.find?
      (fun x => x.id = mid) = some m := by rw [hstate1.2]; exact hm
  have h2r := (chat_react_state uid code mid e0
    (chat_react_ev (some uid) code (some mid) e0 db).1 m hmid hemoji hm1).1
  have hperm : (chat_react_ev (some uid) code (some mid) e0
        (chat_react_ev (some uid) code (some mid) e0 db).1).1.message_reactions.Perm
      db.message_reactions := by
    rw [h2r, h1r]
    exact toggle_toggle_perm hcount
  have hdstate1 := dm_react_state uid dmid e1 db dm hdmid hdemoji hdm
  have hd1r := hdstate1.1
  have hdm1 : (dm_react_ev (some uid) (some dmid) e1 db).1.dm_messages.find?
      (fun x => x.id = dmid) = some dm := by rw [hdstate1.2]; exact hdm
  have hd2r := (dm_react_state uid dmid e1
    (dm_react_ev (some uid) (some dmid) e1 db).1 dm hdmid hdemoji hdm1).1
  have hdperm : (dm_react_ev (some uid) (some dmid) e1
        (dm_react_ev (some uid) (some dmid) e1 db).1).1.dm_reactions.Perm
      db.dm_reactions := by
    rw [hd2r, hd1r]
    exact toggle_toggle_perm hdcount
  refine ⟨⟨hperm, ?_⟩, ?_, ⟨hdperm, ?_⟩, ?_⟩
  · intro em
    unfold reaction_count
    rw [← List.countP_eq_length_filter, ← List.countP_eq_length_filter]
    exact hperm.countP_eq _
  · intro hx
    rw [h1r]
    exact toggle_removes hx
  · intro em
    unfold reaction_count
    rw [← List.countP_eq_length_filter, ← List.countP_eq_length_filter]
    exact hdperm.countP_eq _
  · intro hx
    rw [hd1r]
    exact toggle_removes hx

/-- Witness for `C6_reaction_double_toggle` at a concrete input. -/
theorem C6_reaction_double_toggle_witness :
    ((chat_react_ev (some 7) (some (str "ab")) (some 3) (some (str "+1"))
        (chat_react_ev (some 7) (some (str "ab")) (some 3) (some (str "+1")) exDb).1).1.message_reactions.Perm
      exDb.message_reactions
    ∧ ∀ em, reaction_count
        (chat_react_ev (some 7) (some (str "ab")) (some 3) (some (str "+1"))
          (chat_react_ev (some 7) (some (str "ab")) (some 3) (some (str "+1")) exDb).1).1.message_reactions 3 em
      = reaction_count exDb.message_reactions 3 em)
    ∧ (⟨3, 7, (pyStrip ((some (str "+1")).getD [])).take 16⟩ ∈ exDb.message_reactions →
        (⟨3, 7, (pyStrip ((some (str "+1")).getD [])).take 16⟩ : Reaction)
          ∉ (chat_react_ev (some 7) (some (str "ab")) (some 3) (some (str "+1")) exDb).1.message_reactions
        ∧ (chat_react_ev (some 7) (some (str "ab")) (some 3) (some (str "+1")) exDb).1.message_reactions.length
          < exDb.message_reactions.length)
    ∧ ((dm_react_ev (some 7) (some 4) (some (str "+1"))
        (dm_react_ev (some 7) (some 4) (some (str "+1")) exDb).1).1.dm_reactions.Perm
        exDb.dm_reactions
    ∧ ∀ em, reaction_count
        (dm_react_ev (some 7) (some 4) (some (str "+1"))
          (dm_react_ev (some 7) (some 4) (some (str "+1")) exDb).1).1.dm_reactions 4 em
      = reaction_count exDb.dm_reactions 4 em)
    ∧ (⟨4, 7, (pyStrip ((some (str "+1")).getD [])).take 16⟩ ∈ exDb.dm_reactions →
        (⟨4, 7, (pyStrip ((some (str "+1")).getD [])).take 16⟩ : Reaction)
          ∉ (dm_react_ev (some 7) (some 4) (some (str "+1")) exDb).1.dm_reactions
        ∧ (dm_react_ev (some 7) (some 4) (some (str "+1")) exDb).1.dm_reactions.length
          < exDb.dm_reactions.length) :=
  C6_reaction_double_toggle 7 (some (str "ab")) 3 4 (some (str "+1")) (some (str "+1"))
    exDb exMsg exDm (by decide) (by decide) (by decide) (by decide) (by decide)
    (by decide) (by decide) (by decide)

-- ---------------------------------------------------------------------
-- Claim C5
-- ---------------------------------------------------------------------

theorem chat_delete_preserves_rows (me : Option UserCtx) (mcode : Option Str)
    (mmid : Option Nat) (now : Nat) (db : Db) :
    ((chat_delete_ev me mcode mmid now db).1.messages.map (fun m => m.id))
      = db.messages.map (fun m => m.id)
    ∧ (chat_delete_ev me mcode mmid now db).1.messages.length = db.messages.length := by
  have key : ((chat_delete_ev me mcode mmid now db).1.messages.map (fun m => m.id))
      = db.messages.map (fun m => m.id) := by
    cases me with
    | none => simp [chat_delete_ev]
    | some u =>
      unfold chat_delete_ev
      simp only []
      split
      · rfl
      · split
        · rfl
        · split
          · rfl
          · split
            · rfl
            · simp only [List.map_map]
              apply List.map_congr_left
              intro a _
              by_cases h : a.id = mmid.getD 0 <;> simp [h]
  refine ⟨key, ?_⟩
  have := congrArg List.length key
  simpa using this

/-- Claim C5: in the `join_board` snapshot the card list is a
permutation of all of the board's cards sorted by
`COALESCE(order_index, id)`; the delivered message list contains only
messages with a null deleted timestamp, each drawn from the 200 most
recent messages by id, has length at most 200, and is ordered
oldest-first (ascending id); and `chat_delete` only sets a timestamp —
it preserves every stored message row, so soft-deleted messages remain
in storage. -/
theorem C5_snapshot_assembly (db : Db) (code : Str) :
    (snapshot_cards db code).Perm
      (db.cards.filter (fun c => db.boards.any (fun b => b.id = c.board_id ∧ b.code = code)))
    ∧ (snapshot_cards db code).Sorted (fun a b => cardKey a ≤ cardKey b)
    ∧ (∀ m ∈ snapshot_messages db code, m.deleted_at = none ∧ m ∈ recent_messages db code)
    ∧ (snapshot_messages db code).length ≤ 200
    ∧ (snapshot_messages db code).Sorted (fun a b => a.id ≤ b.id)
    ∧ (∀ me mcode mmid now,
        ((chat_delete_ev me mcode mmid now db).1.messages.map (fun m => m.id))
          = db.messages.map (fun m => m.id)
        ∧ (chat_delete_ev me mcode mmid now db).1.messages.length = db.messages.length) := by
  refine ⟨?_, ?_, ?_, ?_, ?_, ?_⟩
  · exact List.perm_insertionSort _ _
  · haveI hti : IsTotal CardRow (fun a b => cardKey a ≤ cardKey b) :=
      ⟨fun a b => le_total _ _⟩
    haveI htr : IsTrans CardRow (fun a b => cardKey a ≤ cardKey b) :=
      ⟨fun _ _ _ hab hbc => le_trans hab hbc⟩
    exact List.sorted_insertionSort _ _
  · intro m hm
    unfold snapshot_messages at hm
    constructor
    · have := List.of_mem_filter hm
      simpa using this
    · exact (List.mem_reverse.mp (List.mem_of_mem_filter hm))
  · unfold snapshot_messages
    calc ((recent_messages db code).reverse.filter
            (fun m => m.deleted_at = none)).length
        ≤ (recent_messages db code).reverse.length := List.length_filter_le _ _
      _ = (recent_messages db code).length := List.length_reverse _
      _ ≤ 200 := by
          unfold recent_messages
          exact List.length_take_le _ _
  · haveI hti : IsTotal MsgRow (fun a b => b.id ≤ a.id) :=
      ⟨fun a b => le_total b.id a.id⟩
    haveI htr : IsTrans MsgRow (fun a b => b.id ≤ a.id) :=
      ⟨fun _ _ _ hab hbc => le_trans hbc hab⟩
    have hsorted : (List.insertionSort (fun a b : MsgRow => b.id ≤ a.id)
        (db.messages.filter
          (fun m => db.boards.any (fun b => b.id = m.board_id ∧ b.code = code)))).Sorted
        (fun a b : MsgRow => b.id ≤ a.id) :=
      List.sorted_insertionSort _ _
    have htake : (recent_messages db code).Pairwise (fun a b : MsgRow => b.id ≤ a.id) :=
      List.Pairwise.sublist (List.take_sublist _ _) hsorted
    have hrev : ((recent_messages db code).reverse).Pairwise
        (fun a b : MsgRow => a.id ≤ b.id) :=
      List.pairwise_reverse.mpr htake
    exact List.Pairwise.sublist (List.filter_sublist _) hrev
  · intro me mcode mmid now
    exact chat_delete_preserves_rows me mcode mmid now db

/-- Witness for `C5_snapshot_assembly` at a concrete input. -/
theorem C5_snapshot_assembly_witness :
    (snapshot_cards exDb (str "ab")).Perm
      (exDb.cards.filter
        (fun c => exDb.boards.any (fun b => b.id = c.board_id ∧ b.code = str "ab")))
    ∧ (snapshot_cards exDb (str "ab")).Sorted (fun a b => cardKey a ≤ cardKey b)
    ∧ (∀ m ∈ snapshot_messages exDb (str "ab"),
        m.deleted_at = none ∧ m ∈ recent_messages exDb (str "ab"))
    ∧ (snapshot_messages exDb (str "ab")).length ≤ 200
    ∧ (snapshot_messages exDb (str "ab")).Sorted (fun a b => a.id ≤ b.id)
    ∧ (∀ me mcode mmid now,
        ((chat_delete_ev me mcode mmid now exDb).1.messages.map (fun m => m.id))
          = exDb.messages.map (fun m => m.id)
        ∧ (chat_delete_ev me mcode mmid now exDb).1.messages.length
          = exDb.messages.length) :=
  C5_snapshot_assembly exDb (str "ab")

-- ---------------------------------------------------------------------
-- Association-list lemmas
-- ---------------------------------------------------------------------

theorem alookup_cons {α β : Type} [DecidableEq α] (k' : α) (v : β)
    (m : List (α × β)) (k : α) :
    alookup ((k', v) :: m) k = if k' = k then some v else alookup m k := by
  by_cases h : k' = k
  · simp [alookup, List.find?_cons, h]
  · simp [alookup, List.find?_cons, h]

theorem alookup_append {α β : Type} [DecidableEq α] (m₁ m₂ : List (α × β)) (k : α) :
    alookup (m₁ ++ m₂) k = (alookup m₁ k).or (alookup m₂ k) := by
  unfold alookup
  rw [List.find?_append]
  cases List.find? (fun e => e.1 = k) m₁ <;> simp

theorem alookup_aadjust {α β : Type} [DecidableEq α] (m : List (α × β)) (k : α)
    (f : β → β) (k' : α) :
    alookup (aadjust m k f) k' =
      if k' = k then (alookup m k).map f else alookup m k' := by
  induction m with
  | nil => by_cases h : k' = k <;> simp [aadjust, alookup, h]
  | cons e m ih =>
    obtain ⟨ek, ev⟩ := e
    simp only [aadjust, List.map_cons] at ih ⊢
    by_cases hek : ek = k <;> by_cases hkk : k' = k <;> by_cases h2 : ek = k' <;>
      simp_all [alookup_cons]

theorem alookup_aupdate {α β : Type} [DecidableEq α] (m : List (α × β)) (k : α)
    (dflt : β) (f : β → β) (k' : α) :
    alookup (aupdate m k dflt f) k' =
      if k' = k then some (f (agetD m k dflt)) else alookup m k' := by
  unfold aupdate
  by_cases hk : (alookup m k).isSome
  · obtain ⟨v, hv⟩ := Option.isSome_iff_exists.mp hk
    rw [if_pos hk, alookup_aadjust]
    by_cases h : k' = k
    · simp [h, hv, agetD]
    · simp [h]
  · rw [if_neg hk, alookup_append]
    have hnone : alookup m k = none := Option.not_isSome_iff_eq_none.mp hk
    by_cases h : k' = k
    · subst h
      simp [hnone, alookup_cons, agetD]
    · rw [alookup_cons, if_neg (fun habs => h habs.symm)]
      cases hmk : alookup m k' <;> simp [alookup, h]

theorem alookup_dset {β : Type} (d : List (Nat × β)) (k : Nat) (v : β) (k' : Nat) :
    alookup (dset d k v) k' = if k' = k then some v else alookup d k' := by
  unfold dset
  by_cases hk : (alookup d k).isSome
  · rw [if_pos hk, alookup_aadjust]
    obtain ⟨w, hw⟩ := Option.isSome_iff_exists.mp hk
    by_cases h : k' = k
    · simp [h, hw]
    · simp [h]
  · rw [if_neg hk, alookup_append]
    have hnone : alookup d k = none := Option.not_isSome_iff_eq_none.mp hk
    by_cases h : k' = k
    · subst h
      simp [hnone, alookup_cons]
    · rw [alookup_cons, if_neg (fun habs => h habs.symm)]
      cases hdk : alookup d k' <;> simp [alookup, h]

theorem alookup_dpop {β : Type} (d : List (Nat × β)) (k k' : Nat) :
    alookup (dpop d k) k' = if k' = k then none else alookup d k' := by
  induction d with
  | nil => by_cases h : k' = k <;> simp [dpop, alookup, h]
  | cons e d ih =>
    obtain ⟨ek, ev⟩ := e
    simp only [dpop, List.filter_cons] at ih ⊢
    by_cases hek : ek = k <;> by_cases hkk : k' = k <;> by_cases h2 : ek = k' <;>
      simp_all [alookup_cons]

theorem mem_dpop {β : Type} {d : List (Nat × β)} {k : Nat} {p : Nat × β}
    (h : p ∈ dpop d k) : p ∈ d ∧ p.1 ≠ k := by
  unfold dpop at h
  refine ⟨List.mem_of_mem_filter h, ?_⟩
  have := List.of_mem_filter h
  simpa using this

theorem akeys_aadjust {α β : Type} [DecidableEq α] (m : List (α × β)) (k : α)
    (f : β → β) : akeys (aadjust m k f) = akeys m := by
  unfold akeys aadjust
  rw [List.map_map]
  apply List.map_congr_left
  intro e _
  by_cases h : e.1 = k <;> simp [h]

theorem alookup_of_mem {α β : Type} [DecidableEq α] {m : List (α × β)}
    {e : α × β} (hnd : (akeys m).Nodup) (he : e ∈ m) :
    alookup m e.1 = some e.2 := by
  induction m with
  | nil => cases he
  | cons e0 m ih =>
    obtain ⟨k0, v0⟩ := e0
    rw [akeys, List.map_cons, List.nodup_cons] at hnd
    rcases List.mem_cons.mp he with h | h
    · subst h
      simp [alookup_cons]
    · have hne : k0 ≠ e.1 := by
        intro habs
        apply hnd.1
        rw [habs]
        exact List.mem_map.mpr ⟨e, h, rfl⟩
      rw [alookup_cons, if_neg hne]
      exact ih hnd.2 h

theorem mem_of_alookup {α β : Type} [DecidableEq α] {m : List (α × β)}
    {k : α} {v : β} (h : alookup m k = some v) : (k, v) ∈ m := by
  induction m with
  | nil => simp [alookup] at h
  | cons e0 m ih =>
    obtain ⟨k0, v0⟩ := e0
    rw [alookup_cons] at h
    by_cases hk : k0 = k
    · rw [if_pos hk] at h
      cases h
      subst hk
      exact List.mem_cons_self _ _
    · rw [if_neg hk] at h
      exact List.mem_cons_of_mem _ (ih h)

-- ---------------------------------------------------------------------
-- Claim C7
-- ---------------------------------------------------------------------

theorem create_card_shape (me : Option Nat) (dd : CreateCardData) (db : Db)
    (b : BoardRow)
    (hb : get_board_by_code db (dd.code.getD []) = some b)
    (hc : dd.code.getD [] ≠ [])
    (ht : (pyStrip (dd.text.getD [])).take 280 ≠ []) :
    (create_card_ev me dd db).2.2 = none
    ∧ ∃ card : CardRow,
        (create_card_ev me dd db).2.1 =
          [⟨board_room (dd.code.getD []), Event.card_added card, true⟩]
        ∧ card ∈ (create_card_ev me dd db).1.cards
        ∧ card.text = (pyStrip (dd.text.getD [])).take 280
        ∧ card.tag = (pyStrip (dd.tag.getD [])).take 16
        ∧ card.author = (pyStrip (dd.author.getD [])).take 32 := by
  refine ⟨by simp [create_card_ev, hb, hc, ht], ?_⟩
  simp only [create_card_ev, hb, hc, ht, or_self, if_false, false_or, if_neg hc]
  exact ⟨_, rfl, by simp, rfl, rfl, rfl⟩

theorem send_chat_shape (me : Option Nat) (dc : SendChatData) (db : Db)
    (b : BoardRow)
    (hb : get_board_by_code db (dc.code.getD []) = some b)
    (hc : dc.code.getD [] ≠ [])
    (ht : (pyStrip (dc.text.getD [])).take 500 ≠ []) :
    (send_chat_ev me dc db).2.2 = none
    ∧ ∃ msg : MsgRow,
        (send_chat_ev me dc db).2.1 =
          [⟨board_room (dc.code.getD []), Event.chat_added (format_message_row msg []), true⟩]
        ∧ msg ∈ (send_chat_ev me dc db).1.messages
        ∧ msg.text = (pyStrip (dc.text.getD [])).take 500
        ∧ msg.author = (pyStrip (dc.author.getD [])).take 32 := by
  refine ⟨by simp [send_chat_ev, hb, hc, ht], ?_⟩
  simp only [send_chat_ev, hb, hc, ht, or_self, if_false, false_or, if_neg hc]
  exact ⟨_, rfl, by simp, rfl, rfl⟩

theorem dm_send_shape (u : UserCtx) (toName t1 : Option Str) (replyTo : Option Nat)
    (voice : Option Str) (db : Db) (other : UserRow)
    (htn : toName.getD [] ≠ [])
    (ht : (pyStrip (t1.getD [])).take 1000 ≠ [])
    (hu : get_user_by_username db (pyLower (toName.getD [])) = some other) :
    (dm_send_ev (some u) toName t1 replyTo voice db).2.2 = none
    ∧ ∃ msg : DmMsgRow,
        (dm_send_ev (some u) toName t1 replyTo voice db).2.1 =
          [⟨dm_room u.id other.id, Event.dm_new msg, true⟩]
        ∧ msg ∈ (dm_send_ev (some u) toName t1 replyTo voice db).1.dm_messages
        ∧ msg.text = (pyStrip (t1.getD [])).take 1000 := by
  refine ⟨by simp [dm_send_ev, hu, htn, ht], ?_⟩
  simp only [dm_send_ev, hu, htn, ht, false_and, or_false, if_false]
  exact ⟨_, rfl, by simp, rfl⟩

theorem group_send_shape (u : UserCtx) (slug t2 : Option Str) (db : Db)
    (room : GroupRoomRow)
    (hs : slug.getD [] ≠ [])
    (ht : (pyStrip (t2.getD [])).take 800 ≠ [])
    (hr : db.group_rooms.find? (fun r => r.slug = slug.getD []) = some room) :
    (group_send_ev (some u) slug t2 db).2.2 = none
    ∧ ∃ msg : GroupMsgRow,
        (group_send_ev (some u) slug t2 db).2.1 =
          [⟨group_socket_room room.slug, Event.group_new msg, true⟩]
        ∧ msg ∈ (group_send_ev (some u) slug t2 db).1.group_messages
        ∧ msg.text = (pyStrip (t2.getD [])).take 800 := by
  refine ⟨by simp [group_send_ev, hr, hs, ht], ?_⟩
  simp only [group_send_ev, hr, hs, ht, or_self, if_false, false_or]
  exact ⟨_, rfl, by simp, rfl⟩

theorem set_title_shape (code ttl : Option Str) (db : Db) (b : BoardRow)
    (hb : get_board_by_code db (code.getD []) = some b)
    (hc : code.getD [] ≠ []) :
    (set_title_ev code ttl db).2.1 =
      [⟨board_room (code.getD []),
        Event.title_changed (pyOr ((pyStrip (ttl.getD [])).take 80) (str "Team Board")),
        true⟩] := by
  simp [set_title_ev, hb, hc]

theorem join_names_entry (sid : Nat) (me : Option Nat) (jd : JoinData) (db : Db)
    (s : Ephem) (b : BoardRow)
    (hb : get_board_by_code db (jd.code.getD []) = some b)
    (hc : jd.code.getD [] ≠ []) :
    alookup (namesOf (join_board_ev sid me jd db s).2.1 (jd.code.getD [])) sid
      = some ((pyOrOpt jd.clientName (str "Anon")).take 24) := by
  simp only [join_board_ev, hb, hc, if_false]
  simp only [namesOf, agetD]
  rw [alookup_aupdate, if_pos rfl, Option.getD_some, alookup_dset, if_pos rfl]

/-- Claim C7 counterexample: a `join_board` with a 33-character client
name stores (and from then on broadcasts) the first 24 characters, not
the first 32 as claimed. -/
theorem C7_counterexample :
    alookup (namesOf (join_board_ev 5 none
        ⟨some (str "ab"), some (List.replicate 33 'a')⟩ exDbNoChat Ephem.empty).2.1
        (str "ab")) 5
      = some (List.replicate 24 'a')
    ∧ List.replicate 24 'a' ≠ (List.replicate 33 'a').take 32 := by
  constructor
  · rfl
  · decide

/-- Claim C7 (amended): oversized free-text fields are silently
truncated, never rejected, with card text 280, chat text 500, DM text
1000, group text 800, tag 16, author 32, emoji 16 and title 80 —
but the `join_board` client display name is truncated to 24
characters (`[:24]`), not 32. -/
theorem C7_truncation_bounds (db : Db) (b : BoardRow) (me : Option Nat)
    (dd : CreateCardData) (dc : SendChatData)
    (uid mid : Nat) (m : MsgRow) (e0 : Option Str)
    (u : UserCtx) (toName t1 : Option Str) (replyTo : Option Nat)
    (voice : Option Str) (other : UserRow)
    (slug t2 : Option Str) (room : GroupRoomRow)
    (tcode ttl : Option Str) (sid : Nat) (jd : JoinData) (s : Ephem)
    (hb1 : get_board_by_code db (dd.code.getD []) = some b)
    (hc1 : dd.code.getD [] ≠ [])
    (ht1 : (pyStrip (dd.text.getD [])).take 280 ≠ [])
    (hb2 : get_board_by_code db (dc.code.getD []) = some b)
    (hc2 : dc.code.getD [] ≠ [])
    (ht2 : (pyStrip (dc.text.getD [])).take 500 ≠ [])
    (htn : toName.getD [] ≠ [])
    (ht3 : (pyStrip (t1.getD [])).take 1000 ≠ [])
    (hu : get_user_by_username db (pyLower (toName.getD [])) = some other)
    (hs : slug.getD [] ≠ [])
    (ht4 : (pyStrip (t2.getD [])).take 800 ≠ [])
    (hr : db.group_rooms.find? (fun r => r.slug = slug.getD []) = some room)
    (hmid : mid ≠ 0)
    (hem : (pyStrip (e0.getD [])).take 16 ≠ [])
    (hm : db.messages.find? (fun x => x.id = mid) = some m)
    (hb3 : get_board_by_code db (tcode.getD []) = some b)
    (hc3 : tcode.getD [] ≠ [])
    (hb4 : get_board_by_code db (jd.code.getD []) = some b)
    (hc4 : jd.code.getD [] ≠ []) :
    ((create_card_ev me dd db).2.2 = none
      ∧ ∃ card : CardRow,
          (create_card_ev me dd db).2.1 =
            [⟨board_room (dd.code.getD []), Event.card_added card, true⟩]
          ∧ card.text = (pyStrip (dd.text.getD [])).take 280
          ∧ card.tag = (pyStrip (dd.tag.getD [])).take 16
          ∧ card.author = (pyStrip (dd.author.getD [])).take 32
          ∧ card.text.length ≤ 280 ∧ card.tag.length ≤ 16 ∧ card.author.length ≤ 32)
    ∧ ((send_chat_ev me dc db).2.2 = none
      ∧ ∃ msg : MsgRow,
          (send_chat_ev me dc db).2.1 =
            [⟨board_room (dc.code.getD []),
              Event.chat_added (format_message_row msg []), true⟩]
          ∧ msg.text = (pyStrip (dc.text.getD [])).take 500
          ∧ msg.author = (pyStrip (dc.author.getD [])).take 32
          ∧ msg.text.length ≤ 500 ∧ msg.author.length ≤ 32)
    ∧ ((dm_send_ev (some u) toName t1 replyTo voice db).2.2 = none
      ∧ ∃ msg : DmMsgRow,
          (dm_send_ev (some u) toName t1 replyTo voice db).2.1 =
            [⟨dm_room u.id other.id, Event.dm_new msg, true⟩]
          ∧ msg.text = (pyStrip (t1.getD [])).take 1000
          ∧ msg.text.length ≤ 1000)
    ∧ ((group_send_ev (some u) slug t2 db).2.2 = none
      ∧ ∃ msg : GroupMsgRow,
          (group_send_ev (some u) slug t2 db).2.1 =
            [⟨group_socket_room room.slug, Event.group_new msg, true⟩]
          ∧ msg.text = (pyStrip (t2.getD [])).take 800
          ∧ msg.text.length ≤ 800)
    ∧ ((chat_react_ev (some uid) (some (str "ab")) (some mid) e0 db).1.message_reactions
        = toggle_reaction db.message_reactions ⟨mid, uid, (pyStrip (e0.getD [])).take 16⟩
      ∧ ((pyStrip (e0.getD [])).take 16).length ≤ 16)
    ∧ ((set_title_ev tcode ttl db).2.1 =
        [⟨board_room (tcode.getD []),
          Event.title_changed (pyOr ((pyStrip (ttl.getD [])).take 80) (str "Team Board")),
          true⟩]
      ∧ (pyOr ((pyStrip (ttl.getD [])).take 80) (str "Team Board")).length ≤ 80)
    ∧ (alookup (namesOf (join_board_ev sid me jd db s).2.1 (jd.code.getD [])) sid
        = some ((pyOrOpt jd.clientName (str "Anon")).take 24)
      ∧ ((pyOrOpt jd.clientName (str "Anon")).take 24).length ≤ 24) := by
  obtain ⟨he1, card, hev1, _, htx1, htg1, hau1⟩ := create_card_shape me dd db b hb1 hc1 ht1
  obtain ⟨he2, msg2, hev2, _, htx2, hau2⟩ := send_chat_shape me dc db b hb2 hc2 ht2
  obtain ⟨he3, msg3, hev3, _, htx3⟩ := dm_send_shape u toName t1 replyTo voice db other htn ht3 hu
  obtain ⟨he4, msg4, hev4, _, htx4⟩ := group_send_shape u slug t2 db room hs ht4 hr
  refine ⟨⟨he1, card, hev1, htx1, htg1, hau1, ?_, ?_, ?_⟩,
    ⟨he2, msg2, hev2, htx2, hau2, ?_, ?_⟩,
    ⟨he3, msg3, hev3, htx3, ?_⟩,
    ⟨he4, msg4, hev4, htx4, ?_⟩,
    ⟨(chat_react_state uid (some (str "ab")) mid e0 db m hmid hem hm).1, ?_⟩,
    ⟨set_title_shape tcode ttl db b hb3 hc3, ?_⟩,
    ⟨join_names_entry sid me jd db s b hb4 hc4, ?_⟩⟩
  · rw [htx1]; exact List.length_take_le _ _
  · rw [htg1]; exact List.length_take_le _ _
  · rw [hau1]; exact List.length_take_le _ _
  · rw [htx2]; exact List.length_take_le _ _
  · rw [hau2]; exact List.length_take_le _ _
  · rw [htx3]; exact List.length_take_le _ _
  · rw [htx4]; exact List.length_take_le _ _
  · exact List.length_take_le _ _
  · unfold pyOr
    by_cases h : (pyStrip (ttl.getD [])).take 80 = []
    · simp [h, str]
    · simp only [h, if_false]
      exact List.length_take_le 80 _
  · exact List.length_take_le _ _

/-- Witness for `C7_truncation_bounds` at a concrete input: the
instantiated join-name conjunct (the part the counterexample is
about), obtained by applying the theorem with every hypothesis
discharged on concrete data. -/
theorem C7_truncation_bounds_witness :
    alookup (namesOf (join_board_ev 5 (some 7)
        ⟨some (str "ab"), some (str "Al")⟩ exDb Ephem.empty).2.1
        ((⟨some (str "ab"), some (str "Al")⟩ : JoinData).code.getD [])) 5
      = some ((pyOrOpt (⟨some (str "ab"), some (str "Al")⟩ : JoinData).clientName
          (str "Anon")).take 24)
    ∧ ((pyOrOpt (⟨some (str "ab"), some (str "Al")⟩ : JoinData).clientName
        (str "Anon")).take 24).length ≤ 24 :=
  (C7_truncation_bounds exDb exBoard (some 7)
    ⟨some (str "ab"), some (str "Hello"), some (str "idea"), some (str "Al"), none⟩
    ⟨some (str "ab"), some (str "Al"), some (str "hey"), none, none, none, none⟩
    7 3 exMsg (some (str "+1"))
    ⟨7, str "alice"⟩ (some (str "bob")) (some (str "yo")) none none exBob
    (some (str "lobby")) (some (str "hi all")) exGroup
    (some (str "ab")) (some (str "  My Title  ")) 5
    ⟨some (str "ab"), some (str "Al")⟩ Ephem.empty
    (by decide) (by decide) (by decide) (by decide) (by decide) (by decide)
    (by decide) (by decide) (by decide) (by decide) (by decide) (by decide)
    (by decide) (by decide) (by decide) (by decide) (by decide) (by decide)
    (by decide)).2.2.2.2.2.2

-- ---------------------------------------------------------------------
-- Claim C8
-- ---------------------------------------------------------------------

/-- Claim C8 counterexample: an authenticated requester (uid 7) with no
membership row on the board joins; the snapshot's role field is
`member` (the requester was auto-enrolled by `ensure_board_member`
earlier in the handler), not `viewer` as claimed. -/
theorem C8_counterexample :
    get_member_role exDbNoMembers exBoard.id 7 = none
    ∧ (join_board_ev 5 (some 7) ⟨some (str "ab"), some (str "Al")⟩
        exDbNoMembers Ephem.empty).2.2.1
      = [⟨self_room 5, Event.board_state
            ⟨[], [], str "ocean", str "Team Board", [⟨1, 7, str "member"⟩],
             [str "general"], some (str "member")⟩, true⟩,
         ⟨board_room (str "ab"), Event.presence 1 [str "Al"], true⟩]
    ∧ some (str "member") ≠ some (str "viewer") := by
  refine ⟨rfl, rfl, by decide⟩

/-- Claim C8 (amended): the snapshot role field equals the requester's
stored role when the requester is an authenticated member, equals
`viewer` when the requester is anonymous, and equals `member` — not
`viewer` — when the authenticated requester had no membership row at
the time of the join, because `join_board` auto-enrols such a
requester via `ensure_board_member` before reading the role. -/
theorem C8_snapshot_role (sid : Nat) (me : Option Nat) (jd : JoinData)
    (db : Db) (s : Ephem) (b : BoardRow)
    (hb : get_board_by_code db (jd.code.getD []) = some b)
    (hc : jd.code.getD [] ≠ []) :
    ∃ bs : BoardState,
      (⟨self_room sid, Event.board_state bs, true⟩ : Emit)
        ∈ (join_board_ev sid me jd db s).2.2.1
      ∧ (me = none → bs.role = some (str "viewer"))
      ∧ (∀ uid r, me = some uid → uid ≠ 0 →
          get_member_role db b.id uid = some r → bs.role = some r)
      ∧ (∀ uid, me = some uid → uid ≠ 0 →
          get_member_role db b.id uid = none → bs.role = some (str "member")) := by
  simp only [join_board_ev, hb, hc, if_false]
  refine ⟨_, List.mem_cons_self _ _, ?_, ?_, ?_⟩
  · intro hme
    subst hme
    rfl
  · intro uid r hme huid hrole
    subst hme
    simp only [join_role, join_db_update]
    have hrow : ∃ row : MemberRow, db.board_members.find?
        (fun x => x.board_id = b.id ∧ x.user_id = uid) = some row ∧ row.role = r := by
      unfold get_member_role at hrole
      rw [if_neg huid] at hrole
      cases hfind : db.board_members.find?
          (fun x => x.board_id = b.id ∧ x.user_id = uid) with
      | none => rw [hfind] at hrole; simp at hrole
      | some row =>
        rw [hfind] at hrole
        exact ⟨row, rfl, by simpa using hrole⟩
    obtain ⟨row, hfind, hrr⟩ := hrow
    have hany : db.board_members.any
        (fun x => x.board_id = b.id ∧ x.user_id = uid) = true := by
      rw [List.any_eq_true]
      have hp := List.find?_some hfind
      exact ⟨row, List.mem_of_find?_eq_some hfind, hp⟩
    unfold ensure_board_member
    rw [if_neg huid, if_pos hany]
    unfold get_member_role
    rw [if_neg huid]
    simp only [hfind, Option.map_some']
    rw [hrr]
  · intro uid hme huid hrole
    subst hme
    simp only [join_role, join_db_update]
    have hfind : db.board_members.find?
        (fun x => x.board_id = b.id ∧ x.user_id = uid) = none := by
      unfold get_member_role at hrole
      rw [if_neg huid] at hrole
      cases hf : db.board_members.find?
          (fun x => x.board_id = b.id ∧ x.user_id = uid) with
      | none => rfl
      | some row => rw [hf] at hrole; simp at hrole
    have hany : db.board_members.any
        (fun x => x.board_id = b.id ∧ x.user_id = uid) = false := by
      rw [List.any_eq_false]
      intro x hx
      have hnp : ¬ (x.board_id = b.id ∧ x.user_id = uid) := by
        have := List.find?_eq_none.mp hfind x hx
        simpa using this
      intro h1
      exact hnp (by simpa using h1)
    unfold ensure_board_member
    rw [if_neg huid,
      if_neg (fun habs => Bool.false_ne_true (hany ▸ habs))]
    unfold get_member_role
    rw [if_neg huid]
    simp only [List.find?_append, hfind, Option.none_or]
    rw [List.find?_cons_of_pos _ (by simp)]
    rfl

/-- Witness for `C8_snapshot_role` at a concrete input. -/
theorem C8_snapshot_role_witness :
    ∃ bs : BoardState,
      (⟨self_room 5, Event.board_state bs, true⟩ : Emit)
        ∈ (join_board_ev 5 (some 7) ⟨some (str "ab"), some (str "Al")⟩
            exDb Ephem.empty).2.2.1
      ∧ ((some 7 : Option Nat) = none → bs.role = some (str "viewer"))
      ∧ (∀ uid r, (some 7 : Option Nat) = some uid → uid ≠ 0 →
          get_member_role exDb exBoard.id uid = some r → bs.role = some r)
      ∧ (∀ uid, (some 7 : Option Nat) = some uid → uid ≠ 0 →
          get_member_role exDb exBoard.id uid = none → bs.role = some (str "member")) :=
  C8_snapshot_role 5 (some 7) ⟨some (str "ab"), some (str "Al")⟩ exDb Ephem.empty
    exBoard (by decide) (by decide)

-- ---------------------------------------------------------------------
-- Claim C9: lemmas about the markdown pipeline
-- ---------------------------------------------------------------------

theorem escapeChar_eq_self {ch : Char}
    (h : ch ∉ (['&', '<', '>', '"', '\''] : List Char)) :
    escapeChar ch = [ch] := by
  simp only [List.mem_cons, List.not_mem_nil, or_false, not_or] at h
  obtain ⟨h1, h2, h3, h4, h5⟩ := h
  simp [escapeChar, h1, h2, h3, h4, h5]

theorem pyEscape_eq_self {s : Str} (h : ∀ ch ∈ s, escapeChar ch = [ch]) :
    pyEscape s = s := by
  induction s with
  | nil => rfl
  | cons c rest ih =>
    unfold pyEscape
    rw [List.flatMap_cons, h c (List.mem_cons_self _ _)]
    have := ih (fun ch hch => h ch (List.mem_cons_of_mem _ hch))
    unfold pyEscape at this
    rw [this]
    rfl

theorem mem_escapeChar_no_marks {a ch : Char} (h : ch ∈ escapeChar a) :
    ch = a ∨ (ch ≠ '*' ∧ ch ≠ '`' ∧ ch ≠ '\n') := by
  unfold escapeChar at h
  split_ifs at h with h1 h2 h3 h4 h5
  · right
    have h' : ch ∈ (['&', 'a', 'm', 'p', ';'] : List Char) := by
      have e : str "&amp;" = (['&', 'a', 'm', 'p', ';'] : List Char) := rfl
      rw [e] at h; exact h
    fin_cases h' <;> decide
  · right
    have h' : ch ∈ (['&', 'l', 't', ';'] : List Char) := by
      have e : str "&lt;" = (['&', 'l', 't', ';'] : List Char) := rfl
      rw [e] at h; exact h
    fin_cases h' <;> decide
  · right
    have h' : ch ∈ (['&', 'g', 't', ';'] : List Char) := by
      have e : str "&gt;" = (['&', 'g', 't', ';'] : List Char) := rfl
      rw [e] at h; exact h
    fin_cases h' <;> decide
  · right
    have h' : ch ∈ (['&', 'q', 'u', 'o', 't', ';'] : List Char) := by
      have e : str "&quot;" = (['&', 'q', 'u', 'o', 't', ';'] : List Char) := rfl
      rw [e] at h; exact h
    fin_cases h' <;> decide
  · right
    have h' : ch ∈ (['&', '#', 'x', '2', '7', ';'] : List Char) := by
      have e : str "&#x27;" = (['&', '#', 'x', '2', '7', ';'] : List Char) := rfl
      rw [e] at h; exact h
    fin_cases h' <;> decide
  · left; simpa using h

theorem pyEscape_no_marks {t : Str} (h : ∀ ch ∈ t, ch ≠ '*' ∧ ch ≠ '`') :
    ∀ ch ∈ pyEscape t, ch ≠ '*' ∧ ch ≠ '`' := by
  intro ch hch
  unfold pyEscape at hch
  rw [List.mem_flatMap] at hch
  obtain ⟨a, ha, hmem⟩ := hch
  rcases mem_escapeChar_no_marks hmem with h1 | h1
  · exact h1 ▸ h a ha
  · exact ⟨h1.1, h1.2.1⟩

theorem nlRepl_eq_self {s : Str} (h : ∀ ch ∈ s, ch ≠ '\n') : nlRepl s = s := by
  induction s with
  | nil => rfl
  | cons c rest ih =>
    unfold nlRepl
    rw [List.flatMap_cons, if_neg (h c (List.mem_cons_self _ _))]
    have := ih (fun ch hch => h ch (List.mem_cons_of_mem _ hch))
    unfold nlRepl at this
    rw [this]
    rfl

theorem subBold_eq_self {s : Str} (h : ∀ ch ∈ s, ch ≠ '*') : subBold s = s := by
  induction s with
  | nil => simp [subBold]
  | cons c rest ih =>
    have hcn : ¬ (c = '*' ∧ rest.take 1 = str "*") :=
      fun habs => h c (List.mem_cons_self _ _) habs.1
    rw [subBold, if_neg hcn, ih (fun ch hch => h ch (List.mem_cons_of_mem _ hch))]

theorem subItal_eq_self {s : Str} (h : ∀ ch ∈ s, ch ≠ '*') : subItal s = s := by
  induction s with
  | nil => simp [subItal]
  | cons c rest ih =>
    rw [subItal, if_neg (h c (List.mem_cons_self _ _)),
      ih (fun ch hch => h ch (List.mem_cons_of_mem _ hch))]

theorem subCode_eq_self {s : Str} (h : ∀ ch ∈ s, ch ≠ '`') : subCode s = s := by
  induction s with
  | nil => simp [subCode]
  | cons c rest ih =>
    rw [subCode, if_neg (h c (List.mem_cons_self _ _)),
      ih (fun ch hch => h ch (List.mem_cons_of_mem _ hch))]

theorem take_two_cons {b : Char} {X : List Char} : (b :: X).take 2 = b :: X.take 1 := rfl

theorem take_one_cons {b : Char} {X : List Char} : (b :: X).take 1 = [b] := rfl

theorem boldClose_append {c tail : Str} (hc : c ≠ [])
    (hstar : ∀ ch ∈ c, ch ≠ '*') (hnl : ∀ ch ∈ c, ch ≠ '\n') :
    boldClose (c ++ '*' :: '*' :: tail) = some tail := by
  induction c with
  | nil => cases hc rfl
  | cons a c' ih =>
    rw [List.cons_append, boldClose, if_neg (hnl a (List.mem_cons_self _ _))]
    cases c' with
    | nil =>
      rw [List.nil_append,
        if_pos (show List.take 2 ('*' :: '*' :: tail) = str "**" from rfl)]
      rfl
    | cons b c'' =>
      have hb : b ≠ '*' := hstar b (List.mem_cons_of_mem _ (List.mem_cons_self _ _))
      have hne : ((b :: c'' ++ '*' :: '*' :: tail).take 2) ≠ str "**" := by
        intro habs
        rw [List.cons_append, take_two_cons] at habs
        have e : str "**" = ('*' :: '*' :: [] : List Char) := rfl
        rw [e] at habs
        exact hb (List.head_eq_of_cons_eq habs)
      rw [if_neg hne]
      exact ih (by simp) (fun ch hch => hstar ch (List.mem_cons_of_mem _ hch))
        (fun ch hch => hnl ch (List.mem_cons_of_mem _ hch))

theorem italClose_append {c tail : Str} (hc : c ≠ [])
    (hstar : ∀ ch ∈ c, ch ≠ '*') (hnl : ∀ ch ∈ c, ch ≠ '\n') :
    italClose (c ++ '*' :: tail) = some tail := by
  induction c with
  | nil => cases hc rfl
  | cons a c' ih =>
    rw [List.cons_append, italClose, if_neg (hnl a (List.mem_cons_self _ _))]
    cases c' with
    | nil =>
      rw [List.nil_append,
        if_pos (show List.take 1 ('*' :: tail) = str "*" from rfl)]
      rfl
    | cons b c'' =>
      have hb : b ≠ '*' := hstar b (List.mem_cons_of_mem _ (List.mem_cons_self _ _))
      have hne : ((b :: c'' ++ '*' :: tail).take 1) ≠ str "*" := by
        intro habs
        rw [List.cons_append, take_one_cons] at habs
        have e : str "*" = ('*' :: [] : List Char) := rfl
        rw [e] at habs
        exact hb (List.head_eq_of_cons_eq habs)
      rw [if_neg hne]
      exact ih (by simp) (fun ch hch => hstar ch (List.mem_cons_of_mem _ hch))
        (fun ch hch => hnl ch (List.mem_cons_of_mem _ hch))

theorem codeCloseAux_append {c tail : Str} (hbt : ∀ ch ∈ c, ch ≠ '`') :
    codeCloseAux (c ++ '`' :: tail) = some tail := by
  induction c with
  | nil =>
    rw [List.nil_append, codeCloseAux, if_pos rfl]
  | cons a c' ih =>
    rw [List.cons_append, codeCloseAux, if_neg (hbt a (List.mem_cons_self _ _))]
    exact ih (fun ch hch => hbt ch (List.mem_cons_of_mem _ hch))

theorem codeClose_append {c tail : Str} (hc : c ≠ [])
    (hbt : ∀ ch ∈ c, ch ≠ '`') :
    codeClose (c ++ '`' :: tail) = some tail := by
  cases c with
  | nil => cases hc rfl
  | cons a c' =>
    rw [List.cons_append, codeClose, if_neg (hbt a (List.mem_cons_self _ _))]
    exact codeCloseAux_append (fun ch hch => hbt ch (List.mem_cons_of_mem _ hch))

theorem subBold_nil : subBold [] = [] := by simp [subBold]

theorem subItal_nil : subItal [] = [] := by simp [subItal]

theorem subCode_nil : subCode [] = [] := by simp [subCode]

theorem subBold_span {c : Str} (hc : c ≠ []) (hstar : ∀ ch ∈ c, ch ≠ '*')
    (hnl : ∀ ch ∈ c, ch ≠ '\n') :
    subBold ('*' :: '*' :: (c ++ str "**")) = str "<strong>\\1</strong>" := by
  rw [subBold, if_pos ⟨rfl, rfl⟩]
  have hclose : boldClose (('*' :: (c ++ str "**")).drop 1) = some [] := by
    have e : ('*' :: (c ++ str "**")).drop 1 = c ++ '*' :: '*' :: [] := rfl
    rw [e]
    exact boldClose_append hc hstar hnl
  rw [hclose]
  show str "<strong>\\1</strong>" ++ subBold [] = str "<strong>\\1</strong>"
  rw [subBold_nil, List.append_nil]

theorem subBold_span_single {c : Str} (hc : c ≠ [])
    (hstar : ∀ ch ∈ c, ch ≠ '*') :
    subBold (c ++ str "*") = c ++ str "*" := by
  have e : str "*" = ('*' :: [] : List Char) := rfl
  rw [e]
  induction c with
  | nil =>
    rw [List.nil_append, subBold]
    rw [if_neg (fun habs => by
      have h2 := habs.2
      simp [str] at h2)]
    rw [subBold_nil]
  | cons a c' ih =>
    rw [List.cons_append, subBold]
    have ha : a ≠ '*' := hstar a (List.mem_cons_self _ _)
    rw [if_neg (fun habs => ha habs.1)]
    by_cases hc' : c' = []
    · subst hc'
      rw [List.nil_append, subBold]
      rw [if_neg (fun habs => by
        have h2 := habs.2
        simp [str] at h2)]
      rw [subBold_nil]
    · rw [ih hc' (fun ch hch => hstar ch (List.mem_cons_of_mem _ hch))]

theorem subBold_ital_input {c : Str} (hc : c ≠ [])
    (hstar : ∀ ch ∈ c, ch ≠ '*') :
    subBold ('*' :: (c ++ str "*")) = '*' :: (c ++ str "*") := by
  cases c with
  | nil => cases hc rfl
  | cons d c'' =>
    rw [subBold]
    have hd : d ≠ '*' := hstar d (List.mem_cons_self _ _)
    have hne : ¬ ('*' = '*' ∧ ((d :: c'' ++ str "*").take 1) = str "*") := by
      intro habs
      have h2 := habs.2
      rw [List.cons_append, take_one_cons] at h2
      have e : str "*" = ('*' :: [] : List Char) := rfl
      rw [e] at h2
      exact hd (List.head_eq_of_cons_eq h2)
    rw [if_neg hne]
    rw [subBold_span_single hc hstar]

theorem subItal_span {c : Str} (hc : c ≠ []) (hstar : ∀ ch ∈ c, ch ≠ '*')
    (hnl : ∀ ch ∈ c, ch ≠ '\n') :
    subItal ('*' :: (c ++ str "*")) = str "<em>\\1</em>" := by
  rw [subItal, if_pos rfl]
  have hclose : italClose (c ++ str "*") = some [] := by
    have e : str "*" = ('*' :: [] : List Char) := rfl
    rw [e]
    exact italClose_append hc hstar hnl
  rw [hclose]
  show str "<em>\\1</em>" ++ subItal [] = str "<em>\\1</em>"
  rw [subItal_nil, List.append_nil]

theorem subCode_span {c : Str} (hc : c ≠ []) (hbt : ∀ ch ∈ c, ch ≠ '`') :
    subCode ('`' :: (c ++ str "`")) = str "<code>\\1</code>" := by
  rw [subCode, if_pos rfl]
  have hclose : codeClose (c ++ str "`") = some [] := by
    have e : str "`" = ('`' :: [] : List Char) := rfl
    rw [e]
    exact codeClose_append hc hbt
  rw [hclose]
  show str "<code>\\1</code>" ++ subCode [] = str "<code>\\1</code>"
  rw [subCode_nil, List.append_nil]

/-- Claim C9: every markdown span is replaced by the corresponding tag
wrapping the literal two-character text `\1` instead of the captured
content, because the replacement templates escape the backslash
(`r"<strong>\\1</strong>"`), so no backreference occurs; text without
`*` and `` ` `` markers is rendered as its HTML-escaped form with
newlines turned into `<br>`; and the `html` field of a formatted
message row is exactly this rendering. -/
theorem C9_markdown_literal_backslash_one (c t : Str) (hc : c ≠ [])
    (hp : ∀ ch ∈ c, ch ∉ (['*', '`', '\n', '&', '<', '>', '"', '\''] : List Char))
    (hq : ∀ ch ∈ t, ch ≠ '*' ∧ ch ≠ '`') :
    markdown_to_html ('*' :: '*' :: (c ++ str "**")) = str "<strong>\\1</strong>"
    ∧ markdown_to_html ('*' :: (c ++ str "*")) = str "<em>\\1</em>"
    ∧ markdown_to_html ('`' :: (c ++ str "`")) = str "<code>\\1</code>"
    ∧ markdown_to_html t = nlRepl (pyEscape t)
    ∧ (format_message_row ⟨1, 1, [], '*' :: '*' :: (c ++ str "**"), str "general",
        none, 0, none, none, none, none⟩ []).html = str "<strong>\\1</strong>" := by
  have hstar : ∀ ch ∈ c, ch ≠ '*' := by
    intro ch hch
    have := hp ch hch
    simp only [List.mem_cons, List.not_mem_nil, or_false, not_or] at this
    exact this.1
  have hbt : ∀ ch ∈ c, ch ≠ '`' := by
    intro ch hch
    have := hp ch hch
    simp only [List.mem_cons, List.not_mem_nil, or_false, not_or] at this
    exact this.2.1
  have hnl : ∀ ch ∈ c, ch ≠ '\n' := by
    intro ch hch
    have := hp ch hch
    simp only [List.mem_cons, List.not_mem_nil, or_false, not_or] at this
    exact this.2.2.1
  have hce : ∀ ch ∈ c, escapeChar ch = [ch] := by
    intro ch hch
    have := hp ch hch
    simp only [List.mem_cons, List.not_mem_nil, or_false, not_or] at this
    exact escapeChar_eq_self
      (by simp only [List.mem_cons, List.not_mem_nil, or_false, not_or]
          exact ⟨this.2.2.2.1, this.2.2.2.2.1, this.2.2.2.2.2.1,
            this.2.2.2.2.2.2.1, this.2.2.2.2.2.2.2⟩)
  have hesc1 : pyEscape ('*' :: '*' :: (c ++ str "**")) = '*' :: '*' :: (c ++ str "**") := by
    apply pyEscape_eq_self
    intro ch hch
    rcases List.mem_cons.mp hch with h | h
    · subst h; rfl
    rcases List.mem_cons.mp h with h | h
    · subst h; rfl
    rcases List.mem_append.mp h with h | h
    · exact hce ch h
    · have e : str "**" = (['*', '*'] : List Char) := rfl
      rw [e] at h
      fin_cases h <;> rfl
  have hesc2 : pyEscape ('*' :: (c ++ str "*")) = '*' :: (c ++ str "*") := by
    apply pyEscape_eq_self
    intro ch hch
    rcases List.mem_cons.mp hch with h | h
    · subst h; rfl
    rcases List.mem_append.mp h with h | h
    · exact hce ch h
    · have e : str "*" = (['*'] : List Char) := rfl
      rw [e] at h
      fin_cases h <;> rfl
  have hesc3 : pyEscape ('`' :: (c ++ str "`")) = '`' :: (c ++ str "`") := by
    apply pyEscape_eq_self
    intro ch hch
    rcases List.mem_cons.mp hch with h | h
    · subst h; rfl
    rcases List.mem_append.mp h with h | h
    · exact hce ch h
    · have e : str "`" = (['`'] : List Char) := rfl
      rw [e] at h
      fin_cases h <;> rfl
  have h3star : ∀ ch ∈ '`' :: (c ++ str "`"), ch ≠ '*' := by
    intro ch hch
    rcases List.mem_cons.mp hch with h | h
    · subst h; decide
    rcases List.mem_append.mp h with h | h
    · exact hstar ch h
    · have e : str "`" = (['`'] : List Char) := rfl
      rw [e] at h
      fin_cases h <;> decide
  have main1 : markdown_to_html ('*' :: '*' :: (c ++ str "**"))
      = str "<strong>\\1</strong>" := by
    unfold markdown_to_html
    rw [hesc1, subBold_span hc hstar hnl, subItal_eq_self (by decide),
      subCode_eq_self (by decide), nlRepl_eq_self (by decide)]
  have main2 : markdown_to_html ('*' :: (c ++ str "*")) = str "<em>\\1</em>" := by
    unfold markdown_to_html
    rw [hesc2, subBold_ital_input hc hstar, subItal_span hc hstar hnl,
      subCode_eq_self (by decide), nlRepl_eq_self (by decide)]
  have main3 : markdown_to_html ('`' :: (c ++ str "`")) = str "<code>\\1</code>" := by
    unfold markdown_to_html
    rw [hesc3, subBold_eq_self h3star, subItal_eq_self h3star,
      subCode_span hc hbt, nlRepl_eq_self (by decide)]
  have hq' := pyEscape_no_marks hq
  have main4 : markdown_to_html t = nlRepl (pyEscape t) := by
    unfold markdown_to_html
    rw [subBold_eq_self (fun ch hch => (hq' ch hch).1),
      subItal_eq_self (fun ch hch => (hq' ch hch).1),
      subCode_eq_self (fun ch hch => (hq' ch hch).2)]
  exact ⟨main1, main2, main3, main4, main1⟩

/-- Witness for `C9_markdown_literal_backslash_one` at a concrete
input. -/
theorem C9_markdown_literal_backslash_one_witness :
    markdown_to_html ('*' :: '*' :: (str "Hi" ++ str "**")) = str "<strong>\\1</strong>"
    ∧ markdown_to_html ('*' :: (str "Hi" ++ str "*")) = str "<em>\\1</em>"
    ∧ markdown_to_html ('`' :: (str "Hi" ++ str "`")) = str "<code>\\1</code>"
    ∧ markdown_to_html (str "a\nb") = nlRepl (pyEscape (str "a\nb"))
    ∧ (format_message_row ⟨1, 1, [], '*' :: '*' :: (str "Hi" ++ str "**"),
        str "general", none, 0, none, none, none, none⟩ []).html
      = str "<strong>\\1</strong>" :=
  C9_markdown_literal_backslash_one (str "Hi") (str "a\nb")
    (by decide) (by decide) (by decide)

-- ---------------------------------------------------------------------
-- Claims C3 / C4: characterization of ws_disconnect
-- ---------------------------------------------------------------------

theorem alookup_eq_none_of_not_mem_keys {α β : Type} [DecidableEq α]
    {m : List (α × β)} {k : α} (h : k ∉ akeys m) : alookup m k = none := by
  unfold alookup
  rw [List.find?_eq_none.mpr]
  · rfl
  · intro x hx
    simp only [decide_eq_true_eq]
    intro habs
    exact h (habs ▸ List.mem_map_of_mem Prod.fst hx)

theorem mem_keys_of_alookup_isSome {α β : Type} [DecidableEq α]
    {m : List (α × β)} {k : α} (h : (alookup m k).isSome) : k ∈ akeys m := by
  by_contra habs
  rw [alookup_eq_none_of_not_mem_keys habs] at h
  simp at h

theorem disc_go_pres_lookup (sid : Nat) (u : Option Nat) (db : Db) :
    ∀ (pres : List (Str × List Nat)) names ty cur (code : Str),
    alookup (disc_go sid u db pres names ty cur).pres code
      = (alookup pres code).map
          (fun sids => if sid ∈ sids then sids.erase sid else sids) := by
  intro pres
  induction pres with
  | nil => intro names ty cur code; simp [disc_go, alookup]
  | cons e rest ih =>
    intro names ty cur code
    obtain ⟨c0, sids0⟩ := e
    by_cases hmem : sid ∈ sids0
    · simp only [disc_go, if_pos hmem]
      rw [alookup_cons, alookup_cons]
      by_cases hc : c0 = code
      · rw [if_pos hc, if_pos hc, Option.map_some', if_pos hmem]
      · rw [if_neg hc, if_neg hc, ih]
    · simp only [disc_go, if_neg hmem]
      rw [alookup_cons, alookup_cons]
      by_cases hc : c0 = code
      · rw [if_pos hc, if_pos hc, Option.map_some', if_neg hmem]
      · rw [if_neg hc, if_neg hc, ih]

theorem disc_go_ty_lookup (sid : Nat) (u : Option Nat) (db : Db) :
    ∀ (pres : List (Str × List Nat)) names ty cur (code : Str),
    (akeys pres).Nodup →
    alookup (disc_go sid u db pres names ty cur).ty code
      = if sid ∈ agetD pres code [] then
          (alookup ty code).map (fun d => dpop d sid)
        else alookup ty code := by
  intro pres
  induction pres with
  | nil =>
    intro names ty cur code _
    simp [disc_go, agetD, alookup]
  | cons e rest ih =>
    intro names ty cur code hnd
    obtain ⟨c0, sids0⟩ := e
    rw [akeys, List.map_cons, List.nodup_cons] at hnd
    have hc0rest : alookup rest c0 = none :=
      alookup_eq_none_of_not_mem_keys hnd.1
    by_cases hmem : sid ∈ sids0
    · simp only [disc_go, if_pos hmem]
      rw [ih _ _ _ _ hnd.2]
      by_cases hc : code = c0
      · subst hc
        rw [agetD, hc0rest] at *
        simp only [Option.getD_none, List.not_mem_nil, if_false]
        rw [alookup_aadjust, if_pos rfl]
        rw [agetD, alookup_cons, if_pos rfl, Option.getD_some, if_pos hmem]
      · have hc' : ¬ c0 = code := fun habs => hc habs.symm
        rw [alookup_aadjust, if_neg hc]
        rw [agetD, agetD, alookup_cons, if_neg hc']
    · simp only [disc_go, if_neg hmem]
      rw [ih _ _ _ _ hnd.2]
      by_cases hc : code = c0
      · subst hc
        rw [agetD, hc0rest]
        simp only [Option.getD_none, List.not_mem_nil, if_false]
        rw [agetD, alookup_cons, if_pos rfl, Option.getD_some, if_neg hmem]
      · have hc' : ¬ c0 = code := fun habs => hc habs.symm
        rw [agetD, agetD, alookup_cons, if_neg hc']

theorem disc_go_cur_lookup (sid : Nat) (u : Option Nat) (db : Db) :
    ∀ (pres : List (Str × List Nat)) names ty cur (code : Str),
    (akeys pres).Nodup →
    alookup (disc_go sid u db pres names ty cur).cur code
      = if sid ∈ agetD pres code [] then
          (alookup cur code).map (fun d => dpop d sid)
        else alookup cur code := by
  intro pres
  induction pres with
  | nil =>
    intro names ty cur code _
    simp [disc_go, agetD, alookup]
  | cons e rest ih =>
    intro names ty cur code hnd
    obtain ⟨c0, sids0⟩ := e
    rw [akeys, List.map_cons, List.nodup_cons] at hnd
    have hc0rest : alookup rest c0 = none :=
      alookup_eq_none_of_not_mem_keys hnd.1
    by_cases hmem : sid ∈ sids0
    · simp only [disc_go, if_pos hmem]
      rw [ih _ _ _ _ hnd.2]
      by_cases hc : code = c0
      · subst hc
        rw [agetD, hc0rest] at *
        simp only [Option.getD_none, List.not_mem_nil, if_false]
        rw [alookup_aadjust, if_pos rfl]
        rw [agetD, alookup_cons, if_pos rfl, Option.getD_some, if_pos hmem]
      · have hc' : ¬ c0 = code := fun habs => hc habs.symm
        rw [alookup_aadjust, if_neg hc]
        rw [agetD, agetD, alookup_cons, if_neg hc']
    · simp only [disc_go, if_neg hmem]
      rw [ih _ _ _ _ hnd.2]
      by_cases hc : code = c0
      · subst hc
        rw [agetD, hc0rest]
        simp only [Option.getD_none, List.not_mem_nil, if_false]
        rw [agetD, alookup_cons, if_pos rfl, Option.getD_some, if_neg hmem]
      · have hc' : ¬ c0 = code := fun habs => hc habs.symm
        rw [agetD, agetD, alookup_cons, if_neg hc']

theorem disc_go_ty_keys (sid : Nat) (u : Option Nat) (db : Db) :
    ∀ (pres : List (Str × List Nat)) names ty cur,
    akeys (disc_go sid u db pres names ty cur).ty = akeys ty := by
  intro pres
  induction pres with
  | nil => intro names ty cur; rfl
  | cons e rest ih =>
    intro names ty cur
    obtain ⟨c0, sids0⟩ := e
    by_cases hmem : sid ∈ sids0
    · simp only [disc_go, if_pos hmem]
      rw [ih, akeys_aadjust]
    · simp only [disc_go, if_neg hmem]
      rw [ih]

theorem disc_go_cur_keys (sid : Nat) (u : Option Nat) (db : Db) :
    ∀ (pres : List (Str × List Nat)) names ty cur,
    akeys (disc_go sid u db pres names ty cur).cur = akeys cur := by
  intro pres
  induction pres with
  | nil => intro names ty cur; rfl
  | cons e rest ih =>
    intro names ty cur
    obtain ⟨c0, sids0⟩ := e
    by_cases hmem : sid ∈ sids0
    · simp only [disc_go, if_pos hmem]
      rw [ih, akeys_aadjust]
    · simp only [disc_go, if_neg hmem]
      rw [ih]

theorem disc_go_noop (sid : Nat) (u : Option Nat) (db : Db) :
    ∀ (pres : List (Str × List Nat)) names ty cur,
    (∀ e ∈ pres, sid ∉ e.2) →
    disc_go sid u db pres names ty cur = ⟨pres, names, ty, cur, [], []⟩ := by
  intro pres
  induction pres with
  | nil => intro names ty cur _; rfl
  | cons e rest ih =>
    intro names ty cur h
    obtain ⟨c0, sids0⟩ := e
    have h0 : sid ∉ sids0 := h _ (List.mem_cons_self _ _)
    simp only [disc_go, if_neg h0]
    rw [ih _ _ _ (fun e he => h e (List.mem_cons_of_mem _ he))]

theorem agetD_aadjust_dpop {β : Type} (m : List (Str × List (Nat × β)))
    (c0 : Str) (sid : Nat) :
    agetD (aadjust m c0 (fun d => dpop d sid)) c0 []
      = dpop (agetD m c0 []) sid := by
  rw [agetD, alookup_aadjust, if_pos rfl]
  cases h : alookup m c0 <;> simp [agetD, dpop, h]

theorem disc_go_presence_emits (sid : Nat) (u : Option Nat) (db : Db) :
    ∀ (pres : List (Str × List Nat)) names ty cur (r0 : Str) (n : Nat)
      (nms : List Str) (se : Bool),
    (⟨r0, Event.presence n nms, se⟩ : Emit)
        ∈ (disc_go sid u db pres names ty cur).emits →
    ∃ code sids, (code, sids) ∈ pres ∧ sid ∈ sids ∧ r0 = board_room code
      ∧ n = (sids.erase sid).length := by
  intro pres
  induction pres with
  | nil => intro names ty cur r0 n nms se h; simp [disc_go] at h
  | cons e rest ih =>
    intro names ty cur r0 n nms se h
    obtain ⟨c0, sids0⟩ := e
    by_cases hmem : sid ∈ sids0
    · simp only [disc_go, if_pos hmem] at h
      rcases List.mem_append.mp h with h1 | h1
      · simp only [List.mem_cons, List.not_mem_nil, or_false] at h1
        rcases h1 with h1 | h1 | h1
        · have := congrArg Emit.ev h1
          simp only at this
          have hr := congrArg Emit.room h1
          simp only at hr
          injection this with hn hnms
          exact ⟨c0, sids0, List.mem_cons_self _ _, hmem, hr, hn⟩
        · have := congrArg Emit.ev h1
          simp at this
        · have := congrArg Emit.ev h1
          simp at this
      · obtain ⟨code, sids, hmem2, hs, hr, hn⟩ := ih _ _ _ _ _ _ _ h1
        exact ⟨code, sids, List.mem_cons_of_mem _ hmem2, hs, hr, hn⟩
    · simp only [disc_go, if_neg hmem] at h
      obtain ⟨code, sids, hmem2, hs, hr, hn⟩ := ih _ _ _ _ _ _ _ h
      exact ⟨code, sids, List.mem_cons_of_mem _ hmem2, hs, hr, hn⟩

theorem disc_go_presence_count (sid : Nat) (u : Option Nat) (db : Db) :
    ∀ (pres : List (Str × List Nat)) names ty cur,
    (disc_go sid u db pres names ty cur).emits.countP isPresenceEmit
      = pres.countP (fun e => sid ∈ e.2) := by
  intro pres
  induction pres with
  | nil => intro names ty cur; rfl
  | cons e rest ih =>
    intro names ty cur
    obtain ⟨c0, sids0⟩ := e
    by_cases hmem : sid ∈ sids0
    · simp only [disc_go, if_pos hmem]
      rw [List.countP_append, List.countP_cons, ih]
      simp [isPresenceEmit, List.countP_cons, hmem, Nat.add_comm]
    · simp only [disc_go, if_neg hmem]
      rw [ih, List.countP_cons]
      simp [hmem]

theorem disc_go_typing_emits (sid : Nat) (u : Option Nat) (db : Db) :
    ∀ (pres : List (Str × List Nat)) names ty cur (r0 : Str) (code : Str)
      (authors : List Str) (se : Bool),
    (akeys pres).Nodup →
    (⟨r0, Event.typing_sig code authors, se⟩ : Emit)
        ∈ (disc_go sid u db pres names ty cur).emits →
    sid ∈ agetD pres code [] ∧ r0 = board_room code
      ∧ authors = typingPayload (dpop (agetD ty code []) sid) := by
  intro pres
  induction pres with
  | nil => intro names ty cur r0 code authors se _ h; simp [disc_go] at h
  | cons e rest ih =>
    intro names ty cur r0 code authors se hnd h
    obtain ⟨c0, sids0⟩ := e
    rw [akeys, List.map_cons, List.nodup_cons] at hnd
    by_cases hmem : sid ∈ sids0
    · simp only [disc_go, if_pos hmem] at h
      rcases List.mem_append.mp h with h1 | h1
      · simp only [List.mem_cons, List.not_mem_nil, or_false] at h1
        rcases h1 with h1 | h1 | h1
        · have := congrArg Emit.ev h1
          simp at this
        · have hev := congrArg Emit.ev h1
          simp only at hev
          have hr := congrArg Emit.room h1
          simp only at hr
          injection hev with hcode hauth
          subst hcode
          refine ⟨?_, hr, ?_⟩
          · rw [agetD, alookup_cons, if_pos rfl, Option.getD_some]
            exact hmem
          · rw [hauth, agetD_aadjust_dpop]
        · have := congrArg Emit.ev h1
          simp at this
      · obtain ⟨hs, hr, hauth⟩ := ih _ _ _ _ _ _ _ hnd.2 h1
        have hksome : code ∈ akeys rest := by
          apply mem_keys_of_alookup_isSome
          cases halk : alookup rest code with
          | none => rw [agetD, halk] at hs; simp at hs
          | some v => simp
        have hne : ¬ c0 = code := fun habs => hnd.1 (habs ▸ hksome)
        refine ⟨?_, hr, ?_⟩
        · rw [agetD, alookup_cons, if_neg hne]
          exact hs
        · rw [hauth]
          rw [agetD, alookup_aadjust, if_neg (fun habs => hne habs.symm)]
          rfl
    · simp only [disc_go, if_neg hmem] at h
      obtain ⟨hs, hr, hauth⟩ := ih _ _ _ _ _ _ _ hnd.2 h
      have hksome : code ∈ akeys rest := by
        apply mem_keys_of_alookup_isSome
        cases halk : alookup rest code with
        | none => rw [agetD, halk] at hs; simp at hs
        | some v => simp
      have hne : ¬ c0 = code := fun habs => hnd.1 (habs ▸ hksome)
      refine ⟨?_, hr, hauth⟩
      rw [agetD, alookup_cons, if_neg hne]
      exact hs

theorem disc_go_cursors_emits (sid : Nat) (u : Option Nat) (db : Db) :
    ∀ (pres : List (Str × List Nat)) names ty cur (r0 : Str)
      (entries : List CursorVal) (se : Bool),
    (akeys pres).Nodup →
    (⟨r0, Event.cursors_sig entries, se⟩ : Emit)
        ∈ (disc_go sid u db pres names ty cur).emits →
    ∃ code, sid ∈ agetD pres code [] ∧ r0 = board_room code
      ∧ entries = cursorsPayload (dpop (agetD cur code []) sid) := by
  intro pres
  induction pres with
  | nil => intro names ty cur r0 entries se _ h; simp [disc_go] at h
  | cons e rest ih =>
    intro names ty cur r0 entries se hnd h
    obtain ⟨c0, sids0⟩ := e
    rw [akeys, List.map_cons, List.nodup_cons] at hnd
    by_cases hmem : sid ∈ sids0
    · simp only [disc_go, if_pos hmem] at h
      rcases List.mem_append.mp h with h1 | h1
      · simp only [List.mem_cons, List.not_mem_nil, or_false] at h1
        rcases h1 with h1 | h1 | h1
        · have := congrArg Emit.ev h1
          simp at this
        · have := congrArg Emit.ev h1
          simp at this
        · have hev := congrArg Emit.ev h1
          simp only at hev
          have hr := congrArg Emit.room h1
          simp only at hr
          injection hev with hentries
          refine ⟨c0, ?_, hr, ?_⟩
          · rw [agetD, alookup_cons, if_pos rfl, Option.getD_some]
            exact hmem
          · rw [hentries, agetD_aadjust_dpop]
      · obtain ⟨code, hs, hr, hentries⟩ := ih _ _ _ _ _ _ hnd.2 h1
        have hksome : code ∈ akeys rest := by
          apply mem_keys_of_alookup_isSome
          cases halk : alookup rest code with
          | none => rw [agetD, halk] at hs; simp at hs
          | some v => simp
        have hne : ¬ c0 = code := fun habs => hnd.1 (habs ▸ hksome)
        refine ⟨code, ?_, hr, ?_⟩
        · rw [agetD, alookup_cons, if_neg hne]
          exact hs
        · rw [hentries]
          rw [agetD, alookup_aadjust, if_neg (fun habs => hne habs.symm)]
          rfl
    · simp only [disc_go, if_neg hmem] at h
      obtain ⟨code, hs, hr, hentries⟩ := ih _ _ _ _ _ _ hnd.2 h
      have hksome : code ∈ akeys rest := by
        apply mem_keys_of_alookup_isSome
        cases halk : alookup rest code with
        | none => rw [agetD, halk] at hs; simp at hs
        | some v => simp
      have hne : ¬ c0 = code := fun habs => hnd.1 (habs ▸ hksome)
      refine ⟨code, ?_, hr, hentries⟩
      rw [agetD, alookup_cons, if_neg hne]
      exact hs

theorem mem_sadd {l : List Nat} {x sid : Nat} (h : x ∈ l) : x ∈ sadd l sid := by
  unfold sadd
  split
  · exact h
  · exact List.mem_append_left _ h

theorem mem_aadjust {α β : Type} [DecidableEq α] {m : List (α × β)} {k : α}
    {f : β → β} {e' : α × β} (h : e' ∈ aadjust m k f) :
    ∃ e ∈ m, e' = if e.1 = k then (e.1, f e.2) else e := by
  unfold aadjust at h
  obtain ⟨e, he, heq⟩ := List.mem_map.mp h
  exact ⟨e, he, heq.symm⟩

theorem disc_pres_not_mem (sid : Nat) (u : Option Nat) (db : Db) (s : Ephem)
    (hwf : EphemWF s) (code : Str) :
    sid ∉ presOf (ws_disconnect sid u db s).1 code := by
  simp only [ws_disconnect]
  unfold presOf agetD
  rw [disc_go_pres_lookup]
  cases halk : alookup s.presence code with
  | none => simp
  | some sids =>
    have hmemrow : (code, sids) ∈ s.presence := mem_of_alookup halk
    have hnod : sids.Nodup := hwf.2.1 _ hmemrow
    simp only [Option.map_some', Option.getD_some]
    by_cases hmem : sid ∈ sids
    · rw [if_pos hmem]
      intro habs
      exact ((List.Nodup.mem_erase_iff hnod).mp habs).1 rfl
    · rw [if_neg hmem]
      exact hmem

theorem disc_ty_not_mem (sid : Nat) (u : Option Nat) (db : Db) (s : Ephem)
    (hwf : EphemWF s) (hinv : RoomInv s) :
    ∀ e ∈ (ws_disconnect sid u db s).1.typing_state, ∀ p ∈ e.2, p.1 ≠ sid := by
  intro e he p hp
  simp only [ws_disconnect] at he
  have hnd : (akeys (disc_go sid u db s.presence s.presence_names
      s.typing_state s.cursor_positions).ty).Nodup := by
    rw [disc_go_ty_keys]
    exact hwf.2.2.1
  have halk := alookup_of_mem hnd he
  rw [disc_go_ty_lookup sid u db _ _ _ _ _ hwf.1] at halk
  by_cases haff : sid ∈ agetD s.presence e.1 []
  · rw [if_pos haff] at halk
    cases hty : alookup s.typing_state e.1 with
    | none => rw [hty] at halk; simp at halk
    | some d =>
      rw [hty, Option.map_some'] at halk
      have he2 : e.2 = dpop d sid := by
        injection halk.symm
      rw [he2] at hp
      exact (mem_dpop hp).2
  · rw [if_neg haff] at halk
    intro habs
    have hmemty : (e.1, e.2) ∈ s.typing_state := mem_of_alookup halk
    have := hinv.1 (e.1, e.2) hmemty p hp
    rw [habs] at this
    exact haff this

theorem disc_cur_not_mem (sid : Nat) (u : Option Nat) (db : Db) (s : Ephem)
    (hwf : EphemWF s) (hinv : RoomInv s) :
    ∀ e ∈ (ws_disconnect sid u db s).1.cursor_positions, ∀ p ∈ e.2, p.1 ≠ sid := by
  intro e he p hp
  simp only [ws_disconnect] at he
  have hnd : (akeys (disc_go sid u db s.presence s.presence_names
      s.typing_state s.cursor_positions).cur).Nodup := by
    rw [disc_go_cur_keys]
    exact hwf.2.2.2
  have halk := alookup_of_mem hnd he
  rw [disc_go_cur_lookup sid u db _ _ _ _ _ hwf.1] at halk
  by_cases haff : sid ∈ agetD s.presence e.1 []
  · rw [if_pos haff] at halk
    cases hcu : alookup s.cursor_positions e.1 with
    | none => rw [hcu] at halk; simp at halk
    | some d =>
      rw [hcu, Option.map_some'] at halk
      have he2 : e.2 = dpop d sid := by
        injection halk.symm
      rw [he2] at hp
      exact (mem_dpop hp).2
  · rw [if_neg haff] at halk
    intro habs
    have hmemcu : (e.1, e.2) ∈ s.cursor_positions := mem_of_alookup halk
    have := hinv.2 (e.1, e.2) hmemcu p hp
    rw [habs] at this
    exact haff this

theorem presOf_disc (sid : Nat) (u : Option Nat) (db : Db) (s : Ephem)
    (code : Str) :
    presOf (ws_disconnect sid u db s).1 code
      = if sid ∈ presOf s code then (presOf s code).erase sid
        else presOf s code := by
  simp only [ws_disconnect]
  unfold presOf agetD
  rw [disc_go_pres_lookup]
  cases hpl : alookup s.presence code with
  | none => simp
  | some sids => simp

/-- Claim C4 counterexample: a connection that placed a typing entry
for room `ab` without ever joining it (so the subset invariant does
not hold) keeps that typing entry across its disconnect — the claim
that disconnect removes the connection from every room's typing map is
false in general. -/
theorem C4_counterexample :
    (ws_disconnect 1 none exDbNoChat
        ⟨[], [], [(str "ab", [(1, str "Bob")])], []⟩).1.typing_state
      = [(str "ab", [(1, str "Bob")])]
    ∧ (1, str "Bob") ∈ typingOf (ws_disconnect 1 none exDbNoChat
        ⟨[], [], [(str "ab", [(1, str "Bob")])], []⟩).1 (str "ab") := by
  exact ⟨rfl, by decide⟩

/-- Claim C4 (amended): for states satisfying the dict/set
well-formedness and the typing/cursor ⊆ membership invariant,
disconnecting `sid` removes it from every room's member set, typing
map and cursor map; one presence broadcast is emitted per room whose
member set contained `sid`, carrying the previous member count minus
one; every typing / cursors broadcast emitted by the disconnect is
computed from the room's map with `sid`'s entry removed; and a
disconnect of a connection present in no room is a no-op that emits
nothing and leaves storage untouched. -/
theorem C4_disconnect_cleanup (sid : Nat) (u : Option Nat) (db : Db) (s : Ephem)
    (hwf : EphemWF s) (hinv : RoomInv s) :
    (∀ code : Str, sid ∉ presOf (ws_disconnect sid u db s).1 code)
    ∧ (∀ e ∈ (ws_disconnect sid u db s).1.typing_state, ∀ p ∈ e.2, p.1 ≠ sid)
    ∧ (∀ e ∈ (ws_disconnect sid u db s).1.cursor_positions, ∀ p ∈ e.2, p.1 ≠ sid)
    ∧ (∀ (r0 : Str) (n : Nat) (nms : List Str) (se : Bool),
        (⟨r0, Event.presence n nms, se⟩ : Emit) ∈ (ws_disconnect sid u db s).2.2 →
        ∃ code, r0 = board_room code ∧ sid ∈ presOf s code
          ∧ n + 1 = (presOf s code).length)
    ∧ ((ws_disconnect sid u db s).2.2.countP isPresenceEmit
        = (s.presence.filter (fun e => sid ∈ e.2)).length)
    ∧ (∀ (r0 code : Str) (authors : List Str) (se : Bool),
        (⟨r0, Event.typing_sig code authors, se⟩ : Emit)
            ∈ (ws_disconnect sid u db s).2.2 →
        r0 = board_room code ∧ authors = typingPayload (dpop (typingOf s code) sid))
    ∧ (∀ (r0 : Str) (entries : List CursorVal) (se : Bool),
        (⟨r0, Event.cursors_sig entries, se⟩ : Emit)
            ∈ (ws_disconnect sid u db s).2.2 →
        ∃ code, r0 = board_room code
          ∧ entries = cursorsPayload (dpop (cursorsOf s code) sid))
    ∧ ((∀ e ∈ s.presence, sid ∉ e.2) → ws_disconnect sid u db s = (s, db, [])) := by
  refine ⟨fun code => disc_pres_not_mem sid u db s hwf code,
    disc_ty_not_mem sid u db s hwf hinv,
    disc_cur_not_mem sid u db s hwf hinv, ?_, ?_, ?_, ?_, ?_⟩
  · intro r0 n nms se h
    simp only [ws_disconnect] at h
    obtain ⟨code, sids, hmemrow, hs, hr, hn⟩ :=
      disc_go_presence_emits sid u db _ _ _ _ _ _ _ _ h
    have halk := alookup_of_mem hwf.1 hmemrow
    have hpres : presOf s code = sids := by
      unfold presOf agetD
      rw [halk]
      rfl
    refine ⟨code, hr, by rw [hpres]; exact hs, ?_⟩
    rw [hpres, hn, List.length_erase_of_mem hs]
    have : 0 < sids.length := List.length_pos_of_mem hs
    omega
  · simp only [ws_disconnect]
    rw [disc_go_presence_count, List.countP_eq_length_filter]
  · intro r0 code authors se h
    simp only [ws_disconnect] at h
    obtain ⟨_, hr, hauth⟩ :=
      disc_go_typing_emits sid u db _ _ _ _ _ _ _ _ hwf.1 h
    exact ⟨hr, hauth⟩
  · intro r0 entries se h
    simp only [ws_disconnect] at h
    obtain ⟨code, _, hr, hentries⟩ :=
      disc_go_cursors_emits sid u db _ _ _ _ _ _ _ hwf.1 h
    exact ⟨code, hr, hentries⟩
  · intro hno
    simp only [ws_disconnect]
    rw [disc_go_noop sid u db _ _ _ _ hno]
    simp

/-- Witness for `C4_disconnect_cleanup` at a concrete input: the
instantiated broadcast-count conjunct. -/
theorem C4_disconnect_cleanup_witness :
    (ws_disconnect 1 none exDbNoChat
        ⟨[(str "ab", [1, 2])], [(str "ab", [(1, str "Al"), (2, str "Bo")])],
         [(str "ab", [(1, str "Al")])], []⟩).2.2.countP isPresenceEmit
      = (((⟨[(str "ab", [1, 2])], [(str "ab", [(1, str "Al"), (2, str "Bo")])],
          [(str "ab", [(1, str "Al")])], []⟩ : Ephem)).presence.filter
          (fun e => 1 ∈ e.2)).length :=
  (C4_disconnect_cleanup 1 none exDbNoChat
    ⟨[(str "ab", [1, 2])], [(str "ab", [(1, str "Al"), (2, str "Bo")])],
     [(str "ab", [(1, str "Al")])], []⟩ (by decide) (by decide)).2.2.2.2.1

/-- Claim C3 counterexample: the `typing` and `cursor_move` handlers
insert the sender's entry with no membership check, so from a state
satisfying the subset invariant (here the empty state) one handler
step reaches a state violating it. -/
theorem C3_counterexample :
    RoomInv Ephem.empty
    ∧ ¬ RoomInv (typing_event 1 (some (str "ab")) (some (str "Bob")) Ephem.empty).1
    ∧ ¬ RoomInv (cursor_move 1 (some (str "ab")) (some (str "Bob"))
        none none none Ephem.empty).1 := by
  decide

/-- Claim C3 (amended): `join_board`, `stop_typing` and the disconnect
handler preserve the subset invariant (typing and cursor entries ⊆
room membership), but the claim's universal statement is false:
`typing` and `cursor_move` insert the sender's entry without a
membership check (see the counterexample). -/
theorem C3_subset_invariant_preservation :
    (∀ (sid : Nat) (me : Option Nat) (jd : JoinData) (db : Db) (s : Ephem),
      RoomInv s → RoomInv (join_board_ev sid me jd db s).2.1)
    ∧ (∀ (sid : Nat) (code : Option Str) (s : Ephem),
      RoomInv s → RoomInv (typing_stop sid code s).1)
    ∧ (∀ (sid : Nat) (u : Option Nat) (db : Db) (s : Ephem),
      EphemWF s → RoomInv s → RoomInv (ws_disconnect sid u db s).1) := by
  refine ⟨?_, ?_, ?_⟩
  · intro sid me jd db s hinv
    cases hb : get_board_by_code db (jd.code.getD []) with
    | none => simpa [join_board_ev, hb] using hinv
    | some b =>
      by_cases hcd : jd.code.getD [] = []
      · have hres : (join_board_ev sid me jd db s).2.1 = s := by
          simp only [join_board_ev]
          rw [hb]
          simp [hcd]
        rw [hres]
        exact hinv
      · simp only [join_board_ev, hb, hcd, if_false]
        constructor
        · intro e he p hp
          have hbase := hinv.1 e he p hp
          unfold presOf agetD
          rw [alookup_aupdate]
          by_cases hce : e.1 = jd.code.getD []
          · rw [if_pos hce, Option.getD_some]
            apply mem_sadd
            rw [← hce] at *
            exact hbase
          · rw [if_neg hce]
            exact hbase
        · intro e he p hp
          have hbase := hinv.2 e he p hp
          unfold presOf agetD
          rw [alookup_aupdate]
          by_cases hce : e.1 = jd.code.getD []
          · rw [if_pos hce, Option.getD_some]
            apply mem_sadd
            rw [← hce] at *
            exact hbase
          · rw [if_neg hce]
            exact hbase
  · intro sid code s hinv
    cases code with
    | none => simpa [typing_stop] using hinv
    | some c =>
      by_cases hc : c = []
      · simpa [typing_stop, hc] using hinv
      · simp only [typing_stop, hc, if_false]
        constructor
        · intro e he p hp
          obtain ⟨e0, he0, heq⟩ := mem_aadjust he
          by_cases hek : e0.1 = c
          · rw [heq, if_pos hek] at hp ⊢
            have hp' := (mem_dpop hp).1
            exact hinv.1 e0 he0 p hp'
          · rw [heq, if_neg hek] at hp ⊢
            exact hinv.1 e0 he0 p hp
        · intro e he p hp
          exact hinv.2 e he p hp
  · intro sid u db s hwf hinv
    have hgoal : ∀ (code : Str) (x : Nat), x ≠ sid → x ∈ presOf s code →
        x ∈ presOf (ws_disconnect sid u db s).1 code := by
      intro code x hxne hx
      rw [presOf_disc]
      by_cases haff : sid ∈ presOf s code
      · rw [if_pos haff]
        exact (List.mem_erase_of_ne hxne).mpr hx
      · rw [if_neg haff]
        exact hx
    constructor
    · intro e he p hp
      have hne := disc_ty_not_mem sid u db s hwf hinv e he p hp
      have he' := he
      simp only [ws_disconnect] at he'
      have hnd : (akeys (disc_go sid u db s.presence s.presence_names
          s.typing_state s.cursor_positions).ty).Nodup := by
        rw [disc_go_ty_keys]
        exact hwf.2.2.1
      have halk := alookup_of_mem hnd he'
      rw [disc_go_ty_lookup sid u db _ _ _ _ _ hwf.1] at halk
      apply hgoal e.1 p.1 hne
      by_cases haff : sid ∈ agetD s.presence e.1 []
      · rw [if_pos haff] at halk
        cases hty : alookup s.typing_state e.1 with
        | none => rw [hty] at halk; simp at halk
        | some d =>
          rw [hty, Option.map_some'] at halk
          have he2 : e.2 = dpop d sid := by injection halk.symm
          have hp' : p ∈ d := by
            rw [he2] at hp
            exact (mem_dpop hp).1
          exact hinv.1 (e.1, d) (mem_of_alookup hty) p hp'
      · rw [if_neg haff] at halk
        exact hinv.1 (e.1, e.2) (mem_of_alookup halk) p hp
    · intro e he p hp
      have hne := disc_cur_not_mem sid u db s hwf hinv e he p hp
      have he' := he
      simp only [ws_disconnect] at he'
      have hnd : (akeys (disc_go sid u db s.presence s.presence_names
          s.typing_state s.cursor_positions).cur).Nodup := by
        rw [disc_go_cur_keys]
        exact hwf.2.2.2
      have halk := alookup_of_mem hnd he'
      rw [disc_go_cur_lookup sid u db _ _ _ _ _ hwf.1] at halk
      apply hgoal e.1 p.1 hne
      by_cases haff : sid ∈ agetD s.presence e.1 []
      · rw [if_pos haff] at halk
        cases hcu : alookup s.cursor_positions e.1 with
        | none => rw [hcu] at halk; simp at halk
        | some d =>
          rw [hcu, Option.map_some'] at halk
          have he2 : e.2 = dpop d sid := by injection halk.symm
          have hp' : p ∈ d := by
            rw [he2] at hp
            exact (mem_dpop hp).1
          exact hinv.2 (e.1, d) (mem_of_alookup hcu) p hp'
      · rw [if_neg haff] at halk
        exact hinv.2 (e.1, e.2) (mem_of_alookup halk) p hp

/-- Witness for `C3_subset_invariant_preservation` at concrete
inputs. -/
theorem C3_subset_invariant_preservation_witness :
    RoomInv (join_board_ev 5 none ⟨some (str "ab"), some (str "Al")⟩
      exDbNoChat Ephem.empty).2.1
    ∧ RoomInv (typing_stop 1 (some (str "ab"))
        ⟨[(str "ab", [1])], [], [(str "ab", [(1, str "Al")])], []⟩).1
    ∧ RoomInv (ws_disconnect 1 none exDbNoChat
        ⟨[(str "ab", [1])], [], [(str "ab", [(1, str "Al")])], []⟩).1 :=
  ⟨C3_subset_invariant_preservation.1 5 none ⟨some (str "ab"), some (str "Al")⟩
      exDbNoChat Ephem.empty (by decide),
   C3_subset_invariant_preservation.2.1 1 (some (str "ab"))
      ⟨[(str "ab", [1])], [], [(str "ab", [(1, str "Al")])], []⟩ (by decide),
   C3_subset_invariant_preservation.2.2 1 none exDbNoChat
      ⟨[(str "ab", [1])], [], [(str "ab", [(1, str "Al")])], []⟩
      (by decide) (by decide)⟩

end EchoBoard
